import Mathlib

/-!
# MindPerfect/libsqlite : a shallow embedding of `Sqlite.hh` / `Sqlite.cc`

The C++ wrapper layer (`SqliteDb`, `SqliteStmt`, the `bind` / `column`
specialisations and the streaming operators) is translated function by
function.  The SQLite engine is an external collaborator: every engine
primitive the wrapper calls is answered by an `Engine` value, a deterministic
environment whose answers may depend on the history of calls it has received.
The calls the wrapper issues are appended to `Engine.trace`.

Conventions
* `int` values (status codes, cursors, lengths) are `Int`; conversions between
  `size_t` and `int` are written out (`toInt32`, `toSizeT`).  The cursors are
  only ever incremented by one from 1 or 0, and are taken to stay below 2^31.
* A C++ call has an `Outcome`: it returns, it throws, or it runs into
  undefined behaviour (dereferencing a null pointer, reading past a buffer).
  State written before a `throw` is kept, as in C++.
* `LOG` / `VLOG` statements do not influence state or control flow and are
  left out.
-/

namespace MP

/-! ## Basic types -/

/-- One octet. -/
abbrev Byte := Fin 256

/-- An IEEE-754 binary64 value, by its bit pattern. -/
structure Double where
  bits : Nat
deriving DecidableEq, Repr

/-- NaN: all exponent bits set, mantissa non-zero. -/
def Double.isNaN (d : Double) : Bool :=
  decide ((d.bits / 2 ^ 52) % 2 ^ 11 = 2047) && decide (d.bits % 2 ^ 52 ≠ 0)

/-- Conversion of an integer to a 32-bit `int` (two's complement wrap). -/
def toInt32 (n : Int) : Int := (n + 2 ^ 31) % 2 ^ 32 - 2 ^ 31

/-- Conversion of an integer to a 64-bit `size_t`. -/
def toSizeT (n : Int) : Int := n % 2 ^ 64

/-- What a thrown exception came from. -/
inductive Failure where
  /-- Thrown by the error policy, `throw std::runtime_error(emsg)`. -/
  | error (emsg : String)
  /-- Thrown by `Ensures(false)` ("Ensure failure at ..."). -/
  | ensures
  /-- Thrown by `Expects(false)` ("Expect failure at ..."). -/
  | expects
  /-- Thrown by `std::vector` when asked for more than `max_size()` elements. -/
  | length_error
deriving DecidableEq, Repr

/-- Result of running a C++ call. -/
inductive Outcome (α : Type) where
  | ret (v : α)
  | raise (f : Failure)
  | undefined
deriving DecidableEq, Repr

/-- The call threw. -/
def Outcome.raises {α : Type} : Outcome α → Bool
  | .raise _ => true
  | _ => false

/-- The call threw from a contract check rather than from the error policy. -/
def Outcome.raisesEnsures {α : Type} : Outcome α → Bool
  | .raise .ensures => true
  | _ => false

/-- Apply a function to the returned value. -/
def Outcome.map {α β : Type} (f : α → β) : Outcome α → Outcome β
  | .ret v => .ret (f v)
  | .raise x => .raise x
  | .undefined => .undefined

/-- `Expects(v)` of Sqlite.hh. -/
def Expects (v : Bool) : Outcome Unit :=
  if !v then .raise .expects else .ret ()

/-- `Ensures(v)` of Sqlite.hh. -/
def Ensures (v : Bool) : Outcome Unit :=
  if !v then .raise .ensures else .ret ()

def SQLITE_OK : Int := 0
def SQLITE_ROW : Int := 100
def SQLITE_DONE : Int := 101

def SQLITE_INTEGER : Int := 1
def SQLITE_FLOAT : Int := 2
def SQLITE_TEXT : Int := 3
def SQLITE_BLOB : Int := 4
def SQLITE_NULL : Int := 5

/-- `constexpr bool SqliteExceptionsEnabled = true;` -/
def SqliteExceptionsEnabled : Bool := true

/-! ## The engine -/

/-- A native handle (`sqlite3*` or `sqlite3_stmt*`); `none` is the null pointer. -/
abbrev Ptr := Option Nat

/-- The state-changing engine primitives the wrapper calls, with their arguments.
The destructor argument of the `bind_text` / `bind_blob` primitives is always
`nullptr` (SQLITE_STATIC) in the source: the engine keeps the pointer it is given
and reads the memory when the statement is stepped.  `data` is the content of
that memory at the time of the call and `live` tells whether the memory outlives
the wrapper call (an object or buffer of the caller) or not (the wrapper
function's own by-value parameter).  `bind_text_null` and `bind_blob_null` are
the same two primitives called with a null data pointer. -/
inductive EngineCall where
  | exec (db : Ptr) (sql : String)
  | prepare_v3 (db : Ptr) (sql : String) (nByte : Int) (prepFlags : Nat)
  | finalize (stmt : Nat)
  | step (stmt : Ptr)
  | reset (stmt : Ptr)
  | bind_int (stmt : Ptr) (pos : Int) (v : Int)
  | bind_int64 (stmt : Ptr) (pos : Int) (v : Int)
  | bind_double (stmt : Ptr) (pos : Int) (v : Double)
  | bind_text (stmt : Ptr) (pos : Int) (data : List Byte) (n : Int) (live : Bool)
  | bind_blob (stmt : Ptr) (pos : Int) (data : List Byte) (n : Int) (live : Bool)
  | bind_text_null (stmt : Ptr) (pos : Int) (n : Int)
  | bind_blob_null (stmt : Ptr) (pos : Int) (n : Int)
  | bind_null (stmt : Ptr) (pos : Int)
deriving DecidableEq, Repr

/-- The engine as seen by the wrapper.  Every answer is a function of the calls
received so far (`trace`, oldest first). -/
structure Engine where
  /-- Status code returned by a state-changing primitive. -/
  status : List EngineCall → EngineCall → Int
  /-- Value `sqlite3_exec` stores through its `errmsg` out-parameter. -/
  execErrmsg : List EngineCall → EngineCall → Option String
  /-- Value `sqlite3_prepare_v3` stores through `ppStmt`. -/
  preparedStmt : List EngineCall → EngineCall → Ptr
  /-- `sqlite3_errstr`. -/
  errstr : Int → String
  /-- `sqlite3_extended_errcode`. -/
  extended_errcode : List EngineCall → Ptr → Int
  /-- `sqlite3_errmsg`. -/
  errmsg : List EngineCall → Ptr → String
  /-- `sqlite3_column_type`. -/
  column_type : List EngineCall → Ptr → Int → Int
  /-- `sqlite3_column_int`. -/
  column_int : List EngineCall → Ptr → Int → Int
  /-- `sqlite3_column_int64`. -/
  column_int64 : List EngineCall → Ptr → Int → Int
  /-- `sqlite3_column_double`. -/
  column_double : List EngineCall → Ptr → Int → Double
  /-- `sqlite3_column_text`: null, or the bytes in front of the terminating NUL
  the engine appends. -/
  column_text : List EngineCall → Ptr → Int → Option (List Byte)
  /-- `sqlite3_column_blob`: null, or the bytes the pointer addresses. -/
  column_blob : List EngineCall → Ptr → Int → Option (List Byte)
  /-- `sqlite3_column_bytes`. -/
  column_bytes : List EngineCall → Ptr → Int → Int
  /-- Calls received so far. -/
  trace : List EngineCall

/-- Issue a state-changing call: the engine answers with a status code and
remembers the call. -/
def Engine.call (e : Engine) (c : EngineCall) : Int × Engine :=
  (e.status e.trace c, { e with trace := e.trace ++ [c] })

/-! ## Handles -/

/-- Data members of `class SqliteStmt`.  `m_stmt` is the pointer held by the
`shared_ptr`; the cursors, the last status and the flag are plain members. -/
structure SqliteStmt where
  m_stmt : Ptr
  m_bindPos : Int
  m_colPos : Int
  m_rc : Int
  m_ex : Bool
deriving DecidableEq, Repr

/-- Data members of `class SqliteDb`. -/
structure SqliteDb where
  m_dbh : Ptr
  m_filename : String
  m_flags : Int
  m_rc : Int
  m_ex : Bool
deriving DecidableEq, Repr

/-! ## Error policy -/

/-- `SqliteDb::CheckError(rc, throwOnError)` (static). -/
def SqliteDb.CheckError (e : Engine) (rc : Int) (throwOnError : Bool) : Outcome Int :=
  if rc ≠ SQLITE_OK then
    if rc = SQLITE_ROW ∨ rc = SQLITE_DONE then .ret rc
    else if SqliteExceptionsEnabled && throwOnError then .raise (.error (e.errstr rc))
    else .ret rc
  else .ret rc

/-- `SqliteDb::checkError()`: re-reads the engine's extended error code. -/
def SqliteDb.checkError (db : SqliteDb) (e : Engine) : Outcome Int :=
  let eec := e.extended_errcode e.trace db.m_dbh
  if eec ≠ SQLITE_OK then
    if eec = SQLITE_ROW ∨ eec = SQLITE_DONE then .ret eec
    else if SqliteExceptionsEnabled && db.m_ex then .raise (.error (e.errmsg e.trace db.m_dbh))
    else .ret eec
  else .ret eec

/-- `SqliteStmt::checkError()`: classifies `m_rc`. -/
def SqliteStmt.checkError (s : SqliteStmt) (e : Engine) : Outcome Int :=
  if s.m_rc ≠ SQLITE_OK then
    if s.m_rc = SQLITE_ROW ∨ s.m_rc = SQLITE_DONE then .ret s.m_rc
    else if SqliteExceptionsEnabled && s.m_ex then .raise (.error (e.errstr s.m_rc))
    else .ret s.m_rc
  else .ret s.m_rc

/-- The status code is neither OK nor one of the two informational codes. -/
def isErrorCode (c : Int) : Prop := c ≠ SQLITE_OK ∧ c ≠ SQLITE_ROW ∧ c ≠ SQLITE_DONE

instance (c : Int) : Decidable (isErrorCode c) := by
  unfold isErrorCode; infer_instance

/-! ## Running a call -/

/-- A call on a statement handle: the handle and the engine afterwards, and the
outcome of the call. -/
structure StmtRun (α : Type) where
  stmt : SqliteStmt
  eng : Engine
  out : Outcome α

/-- A call on a connection handle. -/
structure DbRun (α : Type) where
  db : SqliteDb
  eng : Engine
  out : Outcome α

/-- A call of `SqliteDb::prepare`, which also writes its output parameter. -/
structure PrepareRun where
  db : SqliteDb
  stmt : SqliteStmt
  eng : Engine
  out : Outcome Int

/-! ## SqliteStmt : construction and release -/

/-- `Sqlite3StmtDeleter(stmt)`: finalizes a non-null statement; the status of
`sqlite3_finalize` is only logged. -/
def Sqlite3StmtDeleter (stmt : Ptr) (e : Engine) : Engine × Outcome Unit :=
  match stmt with
  | some p => ((e.call (.finalize p)).2, .ret ())
  | none => (e, .ret ())

/-- Dropping one owner of the `shared_ptr` that holds `stmt`: the deleter runs
when this was the last owner. -/
def sharedRelease (stmt : Ptr) (lastOwner : Bool) (e : Engine) : Engine × Outcome Unit :=
  if lastOwner then Sqlite3StmtDeleter stmt e else (e, .ret ())

/-- `SqliteStmt::SqliteStmt(stmt)`; `SqliteEx` is the value, when the constructor
runs, of the copy of the `static inline` variable `SqliteEx` that belongs to the
translation unit of Sqlite.cc, where the constructor is defined. -/
def SqliteStmt.construct (stmt : Ptr) (SqliteEx : Bool) : SqliteStmt :=
  { m_stmt := stmt, m_bindPos := 1, m_colPos := 0, m_rc := 0, m_ex := SqliteEx }

/-- `SqliteStmt::step()`. -/
def SqliteStmt.step (s : SqliteStmt) (e : Engine) : StmtRun Int :=
  let s1 := { s with m_colPos := 0 }
  let r := e.call (.step s1.m_stmt)
  let s2 := { s1 with m_rc := r.1 }
  ⟨s2, r.2, s2.checkError r.2⟩

/-- `SqliteStmt::operator++(int)`, the boolean-returning step. -/
def SqliteStmt.operatorPlusPlus (s : SqliteStmt) (e : Engine) : StmtRun Bool :=
  let s1 := { s with m_colPos := 0 }
  let r := e.call (.step s1.m_stmt)
  let rc := r.1
  let s2 := { s1 with m_rc := rc }
  if rc = SQLITE_ROW then ⟨s2, r.2, .ret true⟩
  else if rc = SQLITE_DONE then ⟨s2, r.2, .ret false⟩
  else if rc ≠ SQLITE_OK then
    match s2.checkError r.2 with
    | .raise f => ⟨s2, r.2, .raise f⟩
    | .undefined => ⟨s2, r.2, .undefined⟩
    | .ret _ => ⟨s2, r.2, .ret false⟩
  else ⟨s2, r.2, .ret false⟩

/-- `SqliteStmt::reset()`. -/
def SqliteStmt.reset (s : SqliteStmt) (e : Engine) : StmtRun Int :=
  let s1 := { s with m_bindPos := 1, m_colPos := 0 }
  let r := e.call (.reset s1.m_stmt)
  let s2 := { s1 with m_rc := r.1 }
  ⟨s2, r.2, s2.checkError r.2⟩

/-- `SqliteStmt::finalize()`; `lastOwner` tells whether this handle is the only
owner of the native statement. -/
def SqliteStmt.finalize (s : SqliteStmt) (lastOwner : Bool) (e : Engine) : StmtRun Int :=
  let s1 := { s with m_bindPos := 1, m_colPos := 0 }
  let r := sharedRelease s1.m_stmt lastOwner e
  let s2 := { s1 with m_stmt := none }
  match r.2 with
  | .ret _ => ⟨s2, r.1, .ret 0⟩
  | .raise f => ⟨s2, r.1, .raise f⟩
  | .undefined => ⟨s2, r.1, .undefined⟩

/-! ## bind group -/

/-- `std::strlen`: number of bytes in front of the first NUL. -/
def strlen (b : List Byte) : Nat := (b.takeWhile (fun x => x ≠ 0)).length

/-- Argument of `bind(pos, t)`: the types for which a `bind` specialisation or
overload exists.  A tuple is given by its object representation, whose length
is `sizeof(args)`.  `string_view val` is a view over the bytes `val` held in a
buffer (its data pointer is not null, also when `val` is empty);
`string_view_null` is the view with a null data pointer and length 0, as
`std::string_view{}`. -/
inductive BindVal where
  | int32 (val : Int)
  | int64 (val : Int)
  | double (val : Double)
  | string_view (val : List Byte)
  | cstr (val : List Byte)
  | nullptr
  | tuple (args : List Byte)
  | string_view_null
deriving DecidableEq, Repr

/-- Argument of `bindref(pos, t)`.  `blob v` is a vector whose `data()` is not
null (also when `v` is empty, a vector that has capacity); `blob_null` is the
empty vector whose `data()` is null, as `Blob_t{}`. -/
inductive BindRef where
  | string (val : List Byte)
  | blob (v : List Byte)
  | tuple (args : List Byte)
  | blob_null
deriving DecidableEq, Repr

/-- `SqliteStmt::bind(i, val)`: the scalar specialisations are
`return m_rc = sqlite3_bind_X(...)`; the tuple overload calls `checkError()`
before returning `m_rc`.  The text forms pass the caller's buffer; the tuple
overload takes the tuple by value and passes `&args`, the address of its own
parameter. -/
def SqliteStmt.bind (s : SqliteStmt) (i : Int) (t : BindVal) (e : Engine) : StmtRun Int :=
  match t with
  | .int32 val =>
    let r := e.call (.bind_int s.m_stmt i val)
    ⟨{ s with m_rc := r.1 }, r.2, .ret r.1⟩
  | .int64 val =>
    let r := e.call (.bind_int64 s.m_stmt i val)
    ⟨{ s with m_rc := r.1 }, r.2, .ret r.1⟩
  | .double val =>
    let r := e.call (.bind_double s.m_stmt i val)
    ⟨{ s with m_rc := r.1 }, r.2, .ret r.1⟩
  | .string_view val =>
    let r := e.call (.bind_text s.m_stmt i val (toInt32 val.length) true)
    ⟨{ s with m_rc := r.1 }, r.2, .ret r.1⟩
  | .cstr val =>
    let r := e.call (.bind_text s.m_stmt i val (toInt32 (strlen val)) true)
    ⟨{ s with m_rc := r.1 }, r.2, .ret r.1⟩
  | .nullptr =>
    let r := e.call (.bind_null s.m_stmt i)
    ⟨{ s with m_rc := r.1 }, r.2, .ret r.1⟩
  | .tuple args =>
    let r := e.call (.bind_blob s.m_stmt i args (toInt32 args.length) false)
    let s1 := { s with m_rc := r.1 }
    match s1.checkError r.2 with
    | .raise f => ⟨s1, r.2, .raise f⟩
    | .undefined => ⟨s1, r.2, .undefined⟩
    | .ret _ => ⟨s1, r.2, .ret s1.m_rc⟩
  | .string_view_null =>
    let r := e.call (.bind_text_null s.m_stmt i (toInt32 0))
    ⟨{ s with m_rc := r.1 }, r.2, .ret r.1⟩

/-- `SqliteStmt::bindref(i, val)`: every form passes the memory of the caller's
object. -/
def SqliteStmt.bindref (s : SqliteStmt) (i : Int) (t : BindRef) (e : Engine) : StmtRun Int :=
  match t with
  | .string val =>
    let r := e.call (.bind_text s.m_stmt i val (toInt32 val.length) true)
    ⟨{ s with m_rc := r.1 }, r.2, .ret r.1⟩
  | .blob v =>
    let r := e.call (.bind_blob s.m_stmt i v (toInt32 v.length) true)
    ⟨{ s with m_rc := r.1 }, r.2, .ret r.1⟩
  | .tuple args =>
    let r := e.call (.bind_blob s.m_stmt i args (toInt32 args.length) true)
    let s1 := { s with m_rc := r.1 }
    match s1.checkError r.2 with
    | .raise f => ⟨s1, r.2, .raise f⟩
    | .undefined => ⟨s1, r.2, .undefined⟩
    | .ret _ => ⟨s1, r.2, .ret s1.m_rc⟩
  | .blob_null =>
    let r := e.call (.bind_blob_null s.m_stmt i (toInt32 0))
    ⟨{ s with m_rc := r.1 }, r.2, .ret r.1⟩

/-- `operator<<(stmt, t)`:
`stmt.m_rc = stmt.bind(stmt.m_bindPos++, t); Ensures(stmt.m_rc == SQLITE_OK);`. -/
def SqliteStmt.operatorShl (s : SqliteStmt) (t : BindVal) (e : Engine) : StmtRun Unit :=
  let pos := s.m_bindPos
  let s1 := { s with m_bindPos := s.m_bindPos + 1 }
  let r := s1.bind pos t e
  match r.out with
  | .raise f => ⟨r.stmt, r.eng, .raise f⟩
  | .undefined => ⟨r.stmt, r.eng, .undefined⟩
  | .ret rc =>
    let s2 := { r.stmt with m_rc := rc }
    ⟨s2, r.eng, Ensures (decide (s2.m_rc = SQLITE_OK))⟩

/-! ## column group -/

/-- Target type of a typed `column(i, v)` call; for a tuple, its `sizeof`. -/
inductive ColTy where
  | int32
  | int64
  | double
  | string
  | blob
  | tuple (sizeofArgs : Nat)
deriving DecidableEq, Repr

/-- Value written to the target of a typed `column(i, v)` call. -/
inductive ColVal where
  | int32 (v : Int)
  | int64 (v : Int)
  | double (v : Double)
  | string (v : List Byte)
  | blob (v : List Byte)
  | tuple (args : List Byte)
deriving DecidableEq, Repr

/-- `SqliteStmt::column(i, v)`, by target type.
* `std::string`: `v = (const char*)sqlite3_column_text(...)` copies the bytes in
  front of the first NUL; a null pointer is undefined behaviour.
* `Blob_t`: `Ensures(ptr)`, then `v.resize(size)` and a byte-wise copy of `size`
  bytes.
* tuple: `Ensures(bptr)`, `Ensures(size == sizeof(args))` (the `int` is converted
  to `size_t` for the comparison), then a copy of `sizeof(args)` bytes. -/
def SqliteStmt.column (s : SqliteStmt) (i : Int) (ty : ColTy) (e : Engine) : Outcome ColVal :=
  match ty with
  | .int32 => .ret (.int32 (e.column_int e.trace s.m_stmt i))
  | .int64 => .ret (.int64 (e.column_int64 e.trace s.m_stmt i))
  | .double => .ret (.double (e.column_double e.trace s.m_stmt i))
  | .string =>
    match e.column_text e.trace s.m_stmt i with
    | none => .undefined
    | some buf => .ret (.string (buf.takeWhile (fun x => x ≠ 0)))
  | .blob =>
    match e.column_blob e.trace s.m_stmt i with
    | none => .raise .ensures
    | some buf =>
      let size := e.column_bytes e.trace s.m_stmt i
      if size < 0 then .raise .length_error
      else if size.toNat ≤ buf.length then .ret (.blob (buf.take size.toNat))
      else .undefined
  | .tuple sizeofArgs =>
    match e.column_blob e.trace s.m_stmt i with
    | none => .raise .ensures
    | some buf =>
      let size := e.column_bytes e.trace s.m_stmt i
      if toSizeT size ≠ (sizeofArgs : Int) then .raise .ensures
      else if sizeofArgs ≤ buf.length then .ret (.tuple (buf.take sizeofArgs))
      else .undefined

/-- `operator>>(stmt, t)`: `stmt.column(stmt.m_colPos++, t)`. -/
def SqliteStmt.operatorShr (s : SqliteStmt) (ty : ColTy) (e : Engine) :
    SqliteStmt × Outcome ColVal :=
  let pos := s.m_colPos
  let s1 := { s with m_colPos := s.m_colPos + 1 }
  (s1, s1.column pos ty e)

/-! ## SqliteDb -/

/-- `SqliteDb::exec(stmt)`.  When the engine hands back a message, the source
runs `sqlite3_free(errmsg)` and then `LOG(ERROR) << errmsg`, which reads the
freed memory: undefined behaviour.  `CheckError` is called only on the other
branch. -/
def SqliteDb.exec (db : SqliteDb) (stmt : String) (e : Engine) : DbRun Int :=
  let c := EngineCall.exec db.m_dbh stmt
  let errmsg := e.execErrmsg e.trace c
  let r := e.call c
  let rc := r.1
  let db1 := { db with m_rc := rc }
  match errmsg with
  | some _ => ⟨db1, r.2, .undefined⟩
  | none =>
    match SqliteDb.CheckError r.2 rc db1.m_ex with
    | .raise f => ⟨db1, r.2, .raise f⟩
    | .undefined => ⟨db1, r.2, .undefined⟩
    | .ret _ => ⟨db1, r.2, .ret rc⟩

/-- `SqliteDb::prepare(sqlStr, stmt)`.  `stmtLastOwner` tells whether the output
parameter is the only owner of the statement it holds on entry (that statement
is released by the copy-assignment on success). -/
def SqliteDb.prepare (db : SqliteDb) (sqlStr : String) (stmt : SqliteStmt)
    (stmtLastOwner : Bool) (SqliteEx : Bool) (e : Engine) : PrepareRun :=
  let sqlStrLen := toInt32 sqlStr.utf8ByteSize
  let c := EngineCall.prepare_v3 db.m_dbh sqlStr sqlStrLen 0
  let ppStmt := e.preparedStmt e.trace c
  let r := e.call c
  let rc := r.1
  let db1 := { db with m_rc := rc }
  if rc = SQLITE_OK then
    let rel := sharedRelease stmt.m_stmt stmtLastOwner r.2
    ⟨db1, SqliteStmt.construct ppStmt SqliteEx, rel.1, .ret rc⟩
  else
    match SqliteDb.CheckError r.2 rc db1.m_ex with
    | .raise f => ⟨db1, stmt, r.2, .raise f⟩
    | .undefined => ⟨db1, stmt, r.2, .undefined⟩
    | .ret _ => ⟨db1, stmt, r.2, .ret rc⟩

/-- `SqliteDb::stmt(sqlStr)`, the factory form of `prepare`. -/
def SqliteDb.stmt (db : SqliteDb) (sqlStr : String) (SqliteEx : Bool) (e : Engine) :
    DbRun SqliteStmt :=
  let sqlStrLen := toInt32 sqlStr.utf8ByteSize
  let c := EngineCall.prepare_v3 db.m_dbh sqlStr sqlStrLen 0
  let ppStmt := e.preparedStmt e.trace c
  let r := e.call c
  let rc := r.1
  let db1 := { db with m_rc := rc }
  if rc = SQLITE_OK then
    ⟨db1, r.2, .ret (SqliteStmt.construct ppStmt SqliteEx)⟩
  else
    match SqliteDb.CheckError r.2 rc db1.m_ex with
    | .raise f => ⟨db1, r.2, .raise f⟩
    | .undefined => ⟨db1, r.2, .undefined⟩
    | .ret _ => ⟨db1, r.2, .ret (SqliteStmt.construct none SqliteEx)⟩

/-! ## Loops and sequences of calls -/

/-- `while(stmt++) body`, run for at most `fuel` evaluations of the loop
condition; `none` when the loop is still running after that many. -/
def whileStep (body : SqliteStmt → Engine → StmtRun Unit) :
    Nat → SqliteStmt → Engine → Option (StmtRun Unit)
  | 0, _, _ => none
  | fuel + 1, s, e =>
    let r := s.operatorPlusPlus e
    match r.out with
    | .ret true =>
      let b := body r.stmt r.eng
      match b.out with
      | .ret _ => whileStep body fuel b.stmt b.eng
      | .raise f => some ⟨b.stmt, b.eng, .raise f⟩
      | .undefined => some ⟨b.stmt, b.eng, .undefined⟩
    | .ret false => some ⟨r.stmt, r.eng, .ret ()⟩
    | .raise f => some ⟨r.stmt, r.eng, .raise f⟩
    | .undefined => some ⟨r.stmt, r.eng, .undefined⟩

/-- `stmt << v1 << ... << vN`; evaluation stops at the first call that does not
return. -/
def SqliteStmt.shlAll : SqliteStmt → List BindVal → Engine → StmtRun Unit
  | s, [], e => ⟨s, e, .ret ()⟩
  | s, v :: vs, e =>
    let r := s.operatorShl v e
    match r.out with
    | .ret _ => SqliteStmt.shlAll r.stmt vs r.eng
    | .raise f => ⟨r.stmt, r.eng, .raise f⟩
    | .undefined => ⟨r.stmt, r.eng, .undefined⟩

/-- `bind(pos, v1); bind(pos + 1, v2); ...`, collecting the returned codes;
evaluation stops at the first call that does not return. -/
def SqliteStmt.bindAll : SqliteStmt → Int → List BindVal → Engine → StmtRun (List Int)
  | s, _, [], e => ⟨s, e, .ret []⟩
  | s, pos, v :: vs, e =>
    let r := s.bind pos v e
    match r.out with
    | .ret rc =>
      let r2 := SqliteStmt.bindAll r.stmt (pos + 1) vs r.eng
      ⟨r2.stmt, r2.eng, r2.out.map (fun l => rc :: l)⟩
    | .raise f => ⟨r.stmt, r.eng, .raise f⟩
    | .undefined => ⟨r.stmt, r.eng, .undefined⟩

/-- `stmt >> t1 >> ... >> tN`, collecting the extracted values; evaluation stops
at the first call that does not return. -/
def SqliteStmt.shrAll : SqliteStmt → List ColTy → Engine → SqliteStmt × Outcome (List ColVal)
  | s, [], _ => (s, .ret [])
  | s, ty :: tys, e =>
    let r := s.operatorShr ty e
    match r.2 with
    | .ret v =>
      let r2 := SqliteStmt.shrAll r.1 tys e
      (r2.1, r2.2.map (fun l => v :: l))
    | .raise f => (r.1, .raise f)
    | .undefined => (r.1, .undefined)

/-- `column(col, t1); column(col + 1, t2); ...`, collecting the extracted values;
evaluation stops at the first call that does not return. -/
def SqliteStmt.columnAll : SqliteStmt → Int → List ColTy → Engine → Outcome (List ColVal)
  | _, _, [], _ => .ret []
  | s, col, ty :: tys, e =>
    match s.column col ty e with
    | .ret v => (SqliteStmt.columnAll s (col + 1) tys e).map (fun l => v :: l)
    | .raise f => .raise f
    | .undefined => .undefined

/-- The engine primitive invoked by `bind(i, t)` on a handle holding `p`. -/
def bindCallOf (p : Ptr) (i : Int) : BindVal → EngineCall
  | .int32 val => .bind_int p i val
  | .int64 val => .bind_int64 p i val
  | .double val => .bind_double p i val
  | .string_view val => .bind_text p i val (toInt32 val.length) true
  | .cstr val => .bind_text p i val (toInt32 (strlen val)) true
  | .nullptr => .bind_null p i
  | .tuple args => .bind_blob p i args (toInt32 args.length) false
  | .string_view_null => .bind_text_null p i (toInt32 0)

/-- The argument is a tuple. -/
def BindVal.isTuple : BindVal → Bool
  | .tuple _ => true
  | _ => false

/-! ## The engine's storage contract

What the SQLite C interface documents about a bound parameter and about the
column primitives reading a value of the same storage class.  This is the
engine's side of a bind / column round trip; the wrapper's side is `bind`,
`bindref` and `column` above. -/

/-- A value held by the engine, by storage class. -/
inductive Cell where
  | integer (v : Int)
  | real (d : Double)
  | text (b : List Byte)
  | blob (b : List Byte)
  | null
deriving DecidableEq, Repr

/-- The value the engine holds for a parameter when the statement is stepped
after a bind call, as far as the interface defines it.
`sqlite3_bind_double` turns NaN into NULL; a negative length makes
`sqlite3_bind_text` read up to the first NUL and is a misuse for
`sqlite3_bind_blob`.  Text and blob memory is bound statically, so the engine
reads it at step time: the interface defines the value only when the memory is
still valid then (`live`), and `none` stands for "not defined".  A null data
pointer binds NULL. -/
def stored : EngineCall → Option Cell
  | .bind_int _ _ v => some (.integer v)
  | .bind_int64 _ _ v => some (.integer v)
  | .bind_double _ _ d => some (if d.isNaN then .null else .real d)
  | .bind_text _ _ data n live =>
    if live then
      some (if n < 0 then .text (data.takeWhile (fun x => x ≠ 0)) else .text (data.take n.toNat))
    else none
  | .bind_blob _ _ data n live =>
    if n < 0 ∨ live = false then none else some (.blob (data.take n.toNat))
  | .bind_null _ _ => some .null
  | .bind_text_null _ _ _ => some .null
  | .bind_blob_null _ _ _ => some .null
  | _ => none

/-- The value held for the parameter of the last call the engine received. -/
def storedBy (e : Engine) : Option Cell := e.trace.getLast?.bind stored

/-- The statement and the parameter position a bind call addresses. -/
def bindTarget : EngineCall → Option (Ptr × Int)
  | .bind_int st pos _ => some (st, pos)
  | .bind_int64 st pos _ => some (st, pos)
  | .bind_double st pos _ => some (st, pos)
  | .bind_text st pos _ _ _ => some (st, pos)
  | .bind_blob st pos _ _ _ => some (st, pos)
  | .bind_null st pos => some (st, pos)
  | .bind_text_null st pos _ => some (st, pos)
  | .bind_blob_null st pos _ => some (st, pos)
  | _ => none

/-- The value the engine holds for parameter `pos` of `stmt` once the calls
`rest` have followed the calls `pre`, `cur` being the value held before them: a
bind call that addresses this parameter and that the engine answers with OK
replaces the value; every other call, a refused bind included, leaves it. -/
def heldAfter (status : List EngineCall → EngineCall → Int) (stmt : Ptr) (pos : Int) :
    List EngineCall → List EngineCall → Option Cell → Option Cell
  | _, [], cur => cur
  | pre, c :: rest, cur =>
    heldAfter status stmt pos (pre ++ [c]) rest
      (if bindTarget c = some (stmt, pos) ∧ status pre c = SQLITE_OK then stored c else cur)

/-- The value the engine holds for parameter `pos` of `stmt`, given the calls it
has received. -/
def Engine.held (e : Engine) (stmt : Ptr) (pos : Int) : Option Cell :=
  heldAfter e.status stmt pos [] e.trace none

/-- The engine's column primitives, at column `i` of `stmt`, report `c` as a
value of its own storage class: an integer by its low 32 bits and in full, a
real as is, text as a pointer to its bytes and a terminating NUL, a blob as a
pointer to its bytes and its length, where the pointer of a zero-length blob is
null, and NULL as 0, 0.0 and null pointers. -/
def Engine.reports (e : Engine) (stmt : Ptr) (i : Int) : Cell → Prop
  | .integer v =>
    e.column_int e.trace stmt i = toInt32 v ∧ e.column_int64 e.trace stmt i = v
  | .real d => e.column_double e.trace stmt i = d
  | .text b =>
    e.column_text e.trace stmt i = some b ∧ e.column_bytes e.trace stmt i = b.length
  | .blob b =>
    e.column_blob e.trace stmt i = (if b = [] then none else some b) ∧
    e.column_bytes e.trace stmt i = b.length
  | .null =>
    e.column_int e.trace stmt i = 0 ∧ e.column_int64 e.trace stmt i = 0 ∧
    e.column_double e.trace stmt i = ⟨0⟩ ∧ e.column_text e.trace stmt i = none ∧
    e.column_blob e.trace stmt i = none ∧ e.column_bytes e.trace stmt i = 0

/-- A scalar value of one of the five types that have both a bind and a column
operation.  `text b` and `blob b` are values whose data pointer is not null;
`textNull` is the empty text `std::string_view{}` and `blobNull` the empty blob
`Blob_t{}`, whose data pointers are null. -/
inductive Scalar where
  | int32 (v : Int)
  | int64 (v : Int)
  | double (d : Double)
  | text (b : List Byte)
  | blob (b : List Byte)
  | textNull
  | blobNull
deriving DecidableEq, Repr

/-- The value is one its C++ type can hold (integer ranges; lengths that fit the
`int` length parameter of the engine). -/
def Scalar.wf : Scalar → Prop
  | .int32 v => -2 ^ 31 ≤ v ∧ v < 2 ^ 31
  | .int64 v => -2 ^ 63 ≤ v ∧ v < 2 ^ 63
  | .double _ => True
  | .text b => b.length < 2 ^ 31
  | .blob b => b.length < 2 ^ 31
  | .textNull => True
  | .blobNull => True

/-- The type's bind operation: `bind` for `int32_t`, `int64_t`, `double` and
`std::string_view`, `bindref` for `Blob_t`. -/
def SqliteStmt.bindScalar (s : SqliteStmt) (i : Int) (v : Scalar) (e : Engine) : StmtRun Int :=
  match v with
  | .int32 x => s.bind i (.int32 x) e
  | .int64 x => s.bind i (.int64 x) e
  | .double d => s.bind i (.double d) e
  | .text b => s.bind i (.string_view b) e
  | .blob b => s.bindref i (.blob b) e
  | .textNull => s.bind i .string_view_null e
  | .blobNull => s.bindref i .blob_null e

/-- The type's column operation. -/
def Scalar.colTy : Scalar → ColTy
  | .int32 _ => .int32
  | .int64 _ => .int64
  | .double _ => .double
  | .text _ => .string
  | .blob _ => .blob
  | .textNull => .string
  | .blobNull => .blob

/-- The value as a `column` result. -/
def Scalar.toColVal : Scalar → ColVal
  | .int32 v => .int32 v
  | .int64 v => .int64 v
  | .double d => .double d
  | .text b => .string b
  | .blob b => .blob b
  | .textNull => .string []
  | .blobNull => .blob []

/-- Bind / extract round trip of `v`: whenever the bind of `v` at position `i`
of statement `s` returns OK, and a column (of statement `s2`, index `j`) reports
the value the engine then holds for parameter `i` of the native statement of
`s`, the typed extraction returns `v`. -/
def RoundTrip (v : Scalar) : Prop :=
  ∀ (s s2 : SqliteStmt) (i j : Int) (e0 e : Engine),
    (s.bindScalar i v e0).out = .ret SQLITE_OK →
    (∀ cell, (s.bindScalar i v e0).eng.held s.m_stmt i = some cell →
      e.reports s2.m_stmt j cell) →
    s2.column j v.colTy e = .ret v.toColVal

/-- The values for which the round trip holds: a double that is not NaN, text
with a non-null data pointer and without a NUL byte, a blob of at least one
byte. -/
def Scalar.survives : Scalar → Prop
  | .int32 _ => True
  | .int64 _ => True
  | .double d => d.isNaN = false
  | .text b => ∀ x ∈ b, x ≠ 0
  | .blob b => b ≠ []
  | .textNull => False
  | .blobNull => False

/-! ## Dynamic column access -/

/-- Content of the `std::any` returned by `column(col)`: an `int`, a `double`, a
`std::string`, a `Blob_t`, or nothing. -/
inductive AnyVal where
  | int (v : Int)
  | double (v : Double)
  | string (v : List Byte)
  | blob (v : List Byte)
  | empty
deriving DecidableEq, Repr

/-- `SqliteStmt::column(col)`, the dynamic form: a `switch` on
`sqlite3_column_type`.
* TEXT: `string{ (const char*) sqlite3_column_text(...) }` copies the bytes in
  front of the first NUL; a null pointer is undefined behaviour.
* BLOB: `Blob_t blob(size)` (a negative `size` converts to a `size_t` beyond
  `max_size()`), then `size` bytes are read through the pointer; with `size` 0
  the pointer is not read. -/
def SqliteStmt.columnAny (s : SqliteStmt) (col : Int) (e : Engine) : Outcome AnyVal :=
  let ct := e.column_type e.trace s.m_stmt col
  if ct = SQLITE_INTEGER then .ret (.int (e.column_int e.trace s.m_stmt col))
  else if ct = SQLITE_FLOAT then .ret (.double (e.column_double e.trace s.m_stmt col))
  else if ct = SQLITE_TEXT then
    match e.column_text e.trace s.m_stmt col with
    | none => .undefined
    | some buf => .ret (.string (buf.takeWhile (fun x => x ≠ 0)))
  else if ct = SQLITE_BLOB then
    let ptr := e.column_blob e.trace s.m_stmt col
    let size := e.column_bytes e.trace s.m_stmt col
    if size < 0 then .raise .length_error
    else if size = 0 then .ret (.blob [])
    else
      match ptr with
      | none => .undefined
      | some buf =>
        if size.toNat ≤ buf.length then .ret (.blob (buf.take size.toNat)) else .undefined
  else .ret .empty

/-- The engine keeps its interface promises at column `col` of `stmt`: under the
TEXT tag the text pointer is not null; under the BLOB tag the byte count is not
negative, a non-null blob pointer addresses exactly that many bytes, and the
pointer is null only for a count of 0. -/
def Engine.columnSound (e : Engine) (stmt : Ptr) (col : Int) : Prop :=
  (e.column_type e.trace stmt col = SQLITE_TEXT → e.column_text e.trace stmt col ≠ none) ∧
  (e.column_type e.trace stmt col = SQLITE_BLOB →
    0 ≤ e.column_bytes e.trace stmt col ∧
    (∀ buf, e.column_blob e.trace stmt col = some buf →
      (buf.length : Int) = e.column_bytes e.trace stmt col) ∧
    (e.column_blob e.trace stmt col = none → e.column_bytes e.trace stmt col = 0))

/-! ## The exceptions flags -/

/-- `SqliteStmt::ex(val)`: sets the handle's own flag. -/
def SqliteStmt.ex (s : SqliteStmt) (val : Bool) : SqliteStmt := { s with m_ex := val }

/-- `SqliteDb::ex(val)`: sets the handle's own flag. -/
def SqliteDb.ex (db : SqliteDb) (val : Bool) : SqliteDb := { db with m_ex := val }

/-! ## Copies of a statement handle -/

/-- The implicit copy constructor of `SqliteStmt`: member-wise.  The copy holds
the same native statement (the `shared_ptr` gains an owner) and its own copies
of the two cursors, the last status and the flag. -/
def SqliteStmt.copy (s : SqliteStmt) : SqliteStmt :=
  { m_stmt := s.m_stmt, m_bindPos := s.m_bindPos, m_colPos := s.m_colPos,
    m_rc := s.m_rc, m_ex := s.m_ex }

/-- The operations that move a cursor. -/
inductive StmtOp where
  | shl (t : BindVal)
  | shr (ty : ColTy)
  | step
  | reset
  | finalize
deriving DecidableEq, Repr

/-- One operation on a handle: the handle and the engine after the call, whether
the call returned or raised (a caller that catches goes on with this state). -/
def SqliteStmt.applyOp (s : SqliteStmt) (op : StmtOp) (lastOwner : Bool) (e : Engine) :
    SqliteStmt × Engine :=
  match op with
  | .shl t => ((s.operatorShl t e).stmt, (s.operatorShl t e).eng)
  | .shr ty => ((s.operatorShr ty e).1, e)
  | .step => ((s.step e).stmt, (s.step e).eng)
  | .reset => ((s.reset e).stmt, (s.reset e).eng)
  | .finalize => ((s.finalize lastOwner e).stmt, (s.finalize lastOwner e).eng)

/-- A sequence of operations on two handles `s` and `c` over one engine; each
entry names the handle it is applied to (`false` for `s`, `true` for `c`).  A
handle is the last owner of its native statement when the other handle does not
hold the same one. -/
def runOps : List (Bool × StmtOp) → SqliteStmt → SqliteStmt → Engine →
    SqliteStmt × SqliteStmt × Engine
  | [], s, c, e => (s, c, e)
  | (false, op) :: ops, s, c, e =>
    let r := s.applyOp op (decide (c.m_stmt ≠ s.m_stmt)) e
    runOps ops r.1 c r.2
  | (true, op) :: ops, s, c, e =>
    let r := c.applyOp op (decide (s.m_stmt ≠ c.m_stmt)) e
    runOps ops s r.1 r.2

/-- The cursors (bind, column) after one operation, from the cursors before. -/
def cursorStep (op : StmtOp) (cur : Int × Int) : Int × Int :=
  match op with
  | .shl _ => (cur.1 + 1, cur.2)
  | .shr _ => (cur.1, cur.2 + 1)
  | .step => (cur.1, 0)
  | .reset => (1, 0)
  | .finalize => (1, 0)

/-- The cursors after those operations of a sequence that are applied to the
handle named `side`. -/
def cursorsAfter (side : Bool) : List (Bool × StmtOp) → Int × Int → Int × Int
  | [], cur => cur
  | (b, op) :: ops, cur =>
    if b = side then cursorsAfter side ops (cursorStep op cur) else cursorsAfter side ops cur

/-- The two cursors of a handle. -/
def SqliteStmt.cursors (s : SqliteStmt) : Int × Int := (s.m_bindPos, s.m_colPos)

/-! ## A concrete engine, used to instantiate the theorems -/

/-- An engine that answers every state-changing call with `rc`, hands out the
statement `pp` on prepare and attaches the diagnostic `msg` on exec. -/
def constEngine (rc : Int) (pp : Ptr) (msg : Option String) : Engine :=
  { status := fun _ _ => rc
    execErrmsg := fun _ _ => msg
    preparedStmt := fun _ _ => pp
    errstr := fun _ => "engine error"
    extended_errcode := fun _ _ => rc
    errmsg := fun _ _ => "engine error"
    column_type := fun _ _ _ => SQLITE_NULL
    column_int := fun _ _ _ => 0
    column_int64 := fun _ _ _ => 0
    column_double := fun _ _ _ => ⟨0⟩
    column_text := fun _ _ _ => none
    column_blob := fun _ _ _ => none
    column_bytes := fun _ _ _ => 0
    trace := [] }

/-- An engine whose column primitives report the cell `c` at every column and
which answers every state-changing call with OK. -/
def cellEngine (c : Cell) : Engine :=
  { constEngine 0 none none with
    column_int := fun _ _ _ => match c with
      | .integer v => toInt32 v
      | _ => 0
    column_int64 := fun _ _ _ => match c with
      | .integer v => v
      | _ => 0
    column_double := fun _ _ _ => match c with
      | .real d => d
      | _ => ⟨0⟩
    column_text := fun _ _ _ => match c with
      | .text b => some b
      | _ => none
    column_blob := fun _ _ _ => match c with
      | .blob b => if b = [] then none else some b
      | _ => none
    column_bytes := fun _ _ _ => match c with
      | .text b => b.length
      | .blob b => b.length
      | _ => 0 }

/-- An engine like `cellEngine c` that also reports the type tag of `c`. -/
def typedCellEngine (c : Cell) : Engine :=
  { cellEngine c with
    column_type := fun _ _ _ => match c with
      | .integer _ => SQLITE_INTEGER
      | .real _ => SQLITE_FLOAT
      | .text _ => SQLITE_TEXT
      | .blob _ => SQLITE_BLOB
      | .null => SQLITE_NULL }

/-- An engine that reports the TEXT tag at every column together with a null
text pointer, as the engine does when it cannot allocate the text. -/
def nullTextEngine : Engine :=
  { constEngine 0 none none with column_type := fun _ _ _ => SQLITE_TEXT }

/-- An engine that answers the n-th state-changing call it receives with the
n-th entry of `codes`, and with DONE once the list is used up. -/
def scriptEngine (codes : List Int) : Engine :=
  { constEngine 0 none none with
    status := fun h _ => codes.getD h.length SQLITE_DONE }

/-- A statement handle on native statement 7, freshly constructed. -/
def demoStmt (ex : Bool) : SqliteStmt := SqliteStmt.construct (some 7) ex

/-- A connection handle on native connection 1. -/
def demoDb (ex : Bool) : SqliteDb :=
  { m_dbh := some 1, m_filename := "test1.db", m_flags := 6, m_rc := 0, m_ex := ex }

/-! ## Auxiliary lemmas -/

theorem toInt32_of_range (n : Int) (h1 : -2 ^ 31 ≤ n) (h2 : n < 2 ^ 31) : toInt32 n = n := by
  unfold toInt32
  norm_num at h1 h2 ⊢
  omega

theorem toInt32_length (b : List Byte) (h : b.length < 2 ^ 31) :
    toInt32 (b.length : Int) = (b.length : Int) := by
  apply toInt32_of_range
  · have : (0 : Int) ≤ (b.length : Int) := Int.ofNat_nonneg _
    norm_num
    omega
  · exact_mod_cast h

theorem takeWhile_ne_zero (b : List Byte) (h : ∀ x ∈ b, x ≠ 0) :
    b.takeWhile (fun x => x ≠ 0) = b := by
  induction b with
  | nil => rfl
  | cons a t ih =>
    have ha : a ≠ 0 := h a (List.mem_cons_self a t)
    simp [List.takeWhile, ha]
    exact fun x hx => h x (List.mem_cons_of_mem a hx)

theorem storedBy_call (e : Engine) (c : EngineCall) : storedBy (e.call c).2 = stored c := by
  simp [storedBy, Engine.call]

theorem heldAfter_append (status : List EngineCall → EngineCall → Int) (stmt : Ptr) (pos : Int)
    (xs : List EngineCall) (c : EngineCall) :
    ∀ (pre : List EngineCall) (cur : Option Cell),
      heldAfter status stmt pos pre (xs ++ [c]) cur =
        if bindTarget c = some (stmt, pos) ∧ status (pre ++ xs) c = SQLITE_OK then stored c
        else heldAfter status stmt pos pre xs cur := by
  induction xs with
  | nil =>
    intro pre cur
    simp [heldAfter]
  | cons x xs ih =>
    intro pre cur
    simp only [List.cons_append, heldAfter, List.append_eq]
    rw [ih]
    simp [List.append_assoc]

theorem held_call (e : Engine) (c : EngineCall) (stmt : Ptr) (pos : Int) :
    (e.call c).2.held stmt pos =
      if bindTarget c = some (stmt, pos) ∧ e.status e.trace c = SQLITE_OK then stored c
      else e.held stmt pos := by
  simp [Engine.held, Engine.call, heldAfter_append]

theorem operatorPlusPlus_stmt (s : SqliteStmt) (e : Engine) :
    (s.operatorPlusPlus e).stmt =
      ⟨s.m_stmt, s.m_bindPos, 0, e.status e.trace (.step s.m_stmt), s.m_ex⟩ ∧
    (s.operatorPlusPlus e).eng = { e with trace := e.trace ++ [.step s.m_stmt] } := by
  simp only [SqliteStmt.operatorPlusPlus, Engine.call]
  split_ifs <;> first | exact ⟨rfl, rfl⟩ | (split <;> exact ⟨rfl, rfl⟩)

theorem operatorPlusPlus_out (s : SqliteStmt) (e : Engine) :
    (s.operatorPlusPlus e).out =
      if e.status e.trace (.step s.m_stmt) = SQLITE_ROW then .ret true
      else if isErrorCode (e.status e.trace (.step s.m_stmt)) ∧ s.m_ex = true then
        .raise (.error (e.errstr (e.status e.trace (.step s.m_stmt))))
      else .ret false := by
  simp only [SqliteStmt.operatorPlusPlus, Engine.call, SqliteStmt.checkError, isErrorCode,
    SqliteExceptionsEnabled, Bool.true_and]
  by_cases h1 : e.status e.trace (.step s.m_stmt) = SQLITE_ROW
  · simp [h1]
  · by_cases h2 : e.status e.trace (.step s.m_stmt) = SQLITE_DONE
    · simp [h2, SQLITE_DONE, SQLITE_ROW]
    · by_cases h0 : e.status e.trace (.step s.m_stmt) = SQLITE_OK
      · simp [h0, SQLITE_OK, SQLITE_ROW]
      · cases hex : s.m_ex <;> simp [h1, h2, h0, hex]

theorem step_out (s : SqliteStmt) (e : Engine) :
    (s.step e).out =
      if isErrorCode (e.status e.trace (.step s.m_stmt)) ∧ s.m_ex = true then
        .raise (.error (e.errstr (e.status e.trace (.step s.m_stmt))))
      else .ret (e.status e.trace (.step s.m_stmt)) := by
  simp only [SqliteStmt.step, Engine.call, SqliteStmt.checkError, isErrorCode,
    SqliteExceptionsEnabled, Bool.true_and]
  by_cases h1 : e.status e.trace (.step s.m_stmt) = SQLITE_ROW
  · simp [h1, SQLITE_ROW, SQLITE_OK]
  · by_cases h2 : e.status e.trace (.step s.m_stmt) = SQLITE_DONE
    · simp [h1, h2, SQLITE_DONE, SQLITE_OK]
    · by_cases h0 : e.status e.trace (.step s.m_stmt) = SQLITE_OK
      · simp [h1, h2, h0]
      · cases hex : s.m_ex <;> simp [h1, h2, h0, hex]

theorem whileStep_rc (body : SqliteStmt → Engine → StmtRun Unit) (fuel : Nat) :
    ∀ (s : SqliteStmt) (e : Engine) (r : StmtRun Unit),
      whileStep body fuel s e = some r → r.out = .ret () → r.stmt.m_rc ≠ SQLITE_ROW := by
  induction fuel with
  | zero => intro s e r h; simp [whileStep] at h
  | succ n ih =>
    intro s e r h hout
    simp only [whileStep] at h
    have hstmt := (operatorPlusPlus_stmt s e).1
    have ho := operatorPlusPlus_out s e
    by_cases h1 : e.status e.trace (.step s.m_stmt) = SQLITE_ROW
    · rw [if_pos h1] at ho
      rw [ho] at h
      simp only at h
      split at h
      · exact ih _ _ r h hout
      · simp only [Option.some.injEq] at h
        subst h
        simp at hout
      · simp only [Option.some.injEq] at h
        subst h
        simp at hout
    · rw [if_neg h1] at ho
      split_ifs at ho with h2
      · rw [ho] at h
        simp only [Option.some.injEq] at h
        subst h
        simp at hout
      · rw [ho] at h
        simp only [Option.some.injEq] at h
        subst h
        simp only [hstmt]
        exact h1

theorem whileStep_rows (f : SqliteStmt → SqliteStmt) (hf : ∀ st, (f st).m_stmt = st.m_stmt)
    (n : Nat) :
    ∀ (s : SqliteStmt) (e : Engine),
      (∀ k < n, e.status (e.trace ++ List.replicate k (.step s.m_stmt)) (.step s.m_stmt)
        = SQLITE_ROW) →
      e.status (e.trace ++ List.replicate n (.step s.m_stmt)) (.step s.m_stmt) = SQLITE_DONE →
      ∃ r, whileStep (fun st en => ⟨f st, en, .ret ()⟩) (n + 1) s e = some r ∧
        r.out = .ret () ∧ r.stmt.m_rc = SQLITE_DONE := by
  induction n with
  | zero =>
    intro s e _ hdone
    simp only [List.replicate, List.append_nil] at hdone
    have hstmt := (operatorPlusPlus_stmt s e).1
    have ho := operatorPlusPlus_out s e
    have hne : ¬ (SQLITE_DONE = SQLITE_ROW) := by decide
    have hnerr : ¬ (isErrorCode SQLITE_DONE ∧ s.m_ex = true) := by
      intro h; exact h.1.2.2 rfl
    rw [hdone, if_neg hne, if_neg hnerr] at ho
    refine ⟨⟨(s.operatorPlusPlus e).stmt, (s.operatorPlusPlus e).eng, .ret ()⟩, ?_, rfl, ?_⟩
    · simp only [whileStep, ho]
    · simp only [hstmt, hdone]
  | succ n ih =>
    intro s e hrows hdone
    have hstmt := (operatorPlusPlus_stmt s e).1
    have heng := (operatorPlusPlus_stmt s e).2
    have ho := operatorPlusPlus_out s e
    have h0 : e.status e.trace (.step s.m_stmt) = SQLITE_ROW := by
      have := hrows 0 (Nat.succ_pos n)
      simpa using this
    rw [if_pos h0] at ho
    have hm : (f (s.operatorPlusPlus e).stmt).m_stmt = s.m_stmt := by
      rw [hf, hstmt]
    have key := ih (f (s.operatorPlusPlus e).stmt) (s.operatorPlusPlus e).eng
      (by
        intro k hk
        rw [hm, heng]
        have := hrows (k + 1) (Nat.succ_lt_succ hk)
        simpa [List.replicate_succ, List.append_assoc] using this)
      (by
        rw [hm, heng]
        simpa [List.replicate_succ, List.append_assoc] using hdone)
    obtain ⟨r, hr, hout, hrc⟩ := key
    refine ⟨r, ?_, hout, hrc⟩
    rw [whileStep]
    simp only [ho]
    exact hr

theorem not_isErrorCode_ok : ¬ isErrorCode SQLITE_OK := fun h => h.1 rfl

theorem not_isErrorCode_row : ¬ isErrorCode SQLITE_ROW := fun h => h.2.1 rfl

theorem not_isErrorCode_done : ¬ isErrorCode SQLITE_DONE := fun h => h.2.2 rfl

theorem bind_eq (s : SqliteStmt) (i : Int) (t : BindVal) (e : Engine) :
    (s.bind i t e).stmt = { s with m_rc := e.status e.trace (bindCallOf s.m_stmt i t) } ∧
    (s.bind i t e).eng = { e with trace := e.trace ++ [bindCallOf s.m_stmt i t] } ∧
    (s.bind i t e).out =
      if t.isTuple = true ∧ isErrorCode (e.status e.trace (bindCallOf s.m_stmt i t)) ∧
          s.m_ex = true then
        .raise (.error (e.errstr (e.status e.trace (bindCallOf s.m_stmt i t))))
      else .ret (e.status e.trace (bindCallOf s.m_stmt i t)) := by
  cases t with
  | tuple a =>
    simp only [SqliteStmt.bind, bindCallOf, Engine.call, BindVal.isTuple,
      SqliteStmt.checkError, isErrorCode, SqliteExceptionsEnabled, Bool.true_and, true_and]
    generalize e.status e.trace (.bind_blob s.m_stmt i a (toInt32 a.length) false) = rc
    by_cases h0 : rc = SQLITE_OK
    · simp [h0]
    · by_cases h1 : rc = SQLITE_ROW
      · simp [h1, SQLITE_ROW, SQLITE_OK]
      · by_cases h2 : rc = SQLITE_DONE
        · simp [h2, SQLITE_DONE, SQLITE_OK, SQLITE_ROW]
        · cases hex : s.m_ex <;> simp [h0, h1, h2, hex]
  | int32 v => simp [SqliteStmt.bind, bindCallOf, Engine.call, BindVal.isTuple]
  | int64 v => simp [SqliteStmt.bind, bindCallOf, Engine.call, BindVal.isTuple]
  | double v => simp [SqliteStmt.bind, bindCallOf, Engine.call, BindVal.isTuple]
  | string_view v => simp [SqliteStmt.bind, bindCallOf, Engine.call, BindVal.isTuple]
  | cstr v => simp [SqliteStmt.bind, bindCallOf, Engine.call, BindVal.isTuple]
  | nullptr => simp [SqliteStmt.bind, bindCallOf, Engine.call, BindVal.isTuple]
  | string_view_null => simp [SqliteStmt.bind, bindCallOf, Engine.call, BindVal.isTuple]

theorem operatorShl_eq (s : SqliteStmt) (t : BindVal) (e : Engine) :
    (s.operatorShl t e).stmt =
      ⟨s.m_stmt, s.m_bindPos + 1, s.m_colPos,
        e.status e.trace (bindCallOf s.m_stmt s.m_bindPos t), s.m_ex⟩ ∧
    (s.operatorShl t e).eng =
      { e with trace := e.trace ++ [bindCallOf s.m_stmt s.m_bindPos t] } ∧
    (s.operatorShl t e).out =
      if t.isTuple = true ∧ isErrorCode (e.status e.trace (bindCallOf s.m_stmt s.m_bindPos t)) ∧
          s.m_ex = true then
        .raise (.error (e.errstr (e.status e.trace (bindCallOf s.m_stmt s.m_bindPos t))))
      else if e.status e.trace (bindCallOf s.m_stmt s.m_bindPos t) = SQLITE_OK then .ret ()
      else .raise .ensures := by
  obtain ⟨h1, h2, h3⟩ := bind_eq { s with m_bindPos := s.m_bindPos + 1 } s.m_bindPos t e
  simp only [] at h1 h2 h3
  simp only [SqliteStmt.operatorShl]
  rw [h3]
  split_ifs with ha hb
  · exact ⟨by rw [h1], h2, rfl⟩
  · refine ⟨by rw [h1], h2, ?_⟩
    simp [Ensures, hb]
  · refine ⟨by rw [h1], h2, ?_⟩
    simp [Ensures, hb]

theorem map_eq_ret {α β : Type} (f : α → β) (o : Outcome α) (x : β) (h : o.map f = .ret x) :
    ∃ l, o = .ret l ∧ f l = x := by
  cases o with
  | ret v => exact ⟨v, rfl, by simpa [Outcome.map] using h⟩
  | raise g => simp [Outcome.map] at h
  | undefined => simp [Outcome.map] at h

theorem shlAll_bindAll (vs : List BindVal) :
    ∀ (s s' : SqliteStmt) (e : Engine), s.m_stmt = s'.m_stmt → s.m_ex = s'.m_ex →
      (s'.bindAll s.m_bindPos vs e).out = .ret (List.replicate vs.length SQLITE_OK) →
      (s.shlAll vs e).eng = (s'.bindAll s.m_bindPos vs e).eng ∧
      (s.shlAll vs e).stmt.m_bindPos = s.m_bindPos + vs.length ∧
      (s.shlAll vs e).stmt.m_stmt = s.m_stmt ∧
      (s.shlAll vs e).out = .ret () := by
  induction vs with
  | nil =>
    intro s s' e _ _ _
    simp [SqliteStmt.shlAll, SqliteStmt.bindAll]
  | cons v vs ih =>
    intro s s' e hp hx hok
    obtain ⟨b1, b2, b3⟩ := bind_eq s' s.m_bindPos v e
    obtain ⟨o1, o2, o3⟩ := operatorShl_eq s v e
    rw [← hp, ← hx] at b3
    rw [← hp] at b2
    simp only [SqliteStmt.bindAll] at hok ⊢
    simp only [SqliteStmt.shlAll]
    split_ifs at b3 with hc
    · rw [b3] at hok
      simp at hok
    · rw [b3] at hok ⊢
      simp only at hok ⊢
      obtain ⟨l, hl, hcons⟩ := map_eq_ret _ _ _ hok
      simp only [List.length_cons, List.replicate_succ, List.cons.injEq] at hcons
      obtain ⟨hrc, hl2⟩ := hcons
      rw [if_neg hc, if_pos hrc] at o3
      rw [o3]
      simp only
      have hm : (s.operatorShl v e).stmt.m_stmt = (s'.bind s.m_bindPos v e).stmt.m_stmt := by
        rw [o1, b1]; exact hp
      have hxx : (s.operatorShl v e).stmt.m_ex = (s'.bind s.m_bindPos v e).stmt.m_ex := by
        rw [o1, b1]; exact hx
      have hpos : (s.operatorShl v e).stmt.m_bindPos = s.m_bindPos + 1 := by rw [o1]
      have heq : (s.operatorShl v e).eng = (s'.bind s.m_bindPos v e).eng := by rw [o2, b2]
      have key := ih (s.operatorShl v e).stmt (s'.bind s.m_bindPos v e).stmt
        (s.operatorShl v e).eng hm hxx
        (by rw [hpos, heq, hl, hl2])
      rw [hpos, heq] at key
      obtain ⟨k1, k2, k3, k4⟩ := key
      rw [heq]
      refine ⟨k1, ?_, ?_, k4⟩
      · rw [k2]; simp only [List.length_cons, Nat.cast_add, Nat.cast_one]; ring
      · rw [k3, o1]

theorem column_congr (s s' : SqliteStmt) (h : s.m_stmt = s'.m_stmt) (i : Int) (ty : ColTy)
    (e : Engine) : s.column i ty e = s'.column i ty e := by
  cases ty <;> simp only [SqliteStmt.column, h]

theorem shrAll_columnAll (tys : List ColTy) :
    ∀ (s s' : SqliteStmt) (e : Engine), s.m_stmt = s'.m_stmt →
      (s.shrAll tys e).2 = s'.columnAll s.m_colPos tys e ∧
      (∀ vals, (s.shrAll tys e).2 = .ret vals →
        (s.shrAll tys e).1.m_colPos = s.m_colPos + tys.length ∧ vals.length = tys.length) := by
  induction tys with
  | nil =>
    intro s s' e _
    simp only [SqliteStmt.shrAll, SqliteStmt.columnAll, true_and]
    intro vals hv
    simp only [Outcome.ret.injEq] at hv
    subst hv
    simp
  | cons ty tys ih =>
    intro s s' e hp
    have hcol : ({ s with m_colPos := s.m_colPos + 1 } : SqliteStmt).column s.m_colPos ty e =
        s'.column s.m_colPos ty e := column_congr _ _ hp _ _ _
    have key := ih { s with m_colPos := s.m_colPos + 1 } s' e hp
    simp only [] at key
    simp only [SqliteStmt.shrAll, SqliteStmt.columnAll, SqliteStmt.operatorShr, hcol]
    cases hc : s'.column s.m_colPos ty e with
    | raise f => simp
    | undefined => simp
    | ret v =>
      simp only
      refine ⟨by rw [key.1], ?_⟩
      intro vals hv
      obtain ⟨l, hl, hcons⟩ := map_eq_ret _ _ _ hv
      obtain ⟨k1, k2⟩ := key.2 l hl
      subst hcons
      refine ⟨?_, by simp [k2]⟩
      rw [k1]; simp only [List.length_cons, Nat.cast_add, Nat.cast_one]; ring

theorem finalize_stmt (s : SqliteStmt) (lastOwner : Bool) (e : Engine) :
    (s.finalize lastOwner e).stmt = ⟨none, 1, 0, s.m_rc, s.m_ex⟩ := by
  cases lastOwner <;> cases hs : s.m_stmt <;>
    simp [SqliteStmt.finalize, sharedRelease, Sqlite3StmtDeleter, hs]

theorem applyOp_cursors (s : SqliteStmt) (op : StmtOp) (lastOwner : Bool) (e : Engine) :
    (s.applyOp op lastOwner e).1.cursors = cursorStep op s.cursors := by
  cases op with
  | shl t =>
    simp only [SqliteStmt.applyOp, SqliteStmt.cursors, cursorStep, (operatorShl_eq s t e).1]
  | shr ty => rfl
  | step => rfl
  | reset => rfl
  | finalize =>
    simp only [SqliteStmt.applyOp, SqliteStmt.cursors, cursorStep, finalize_stmt]

theorem applyOp_m_stmt (s : SqliteStmt) (op : StmtOp) (lastOwner : Bool) (e : Engine) :
    (s.applyOp op lastOwner e).1.m_stmt = s.m_stmt ∨ (s.applyOp op lastOwner e).1.m_stmt = none := by
  cases op with
  | shl t =>
    left
    simp only [SqliteStmt.applyOp, (operatorShl_eq s t e).1]
  | shr ty => exact Or.inl rfl
  | step => exact Or.inl rfl
  | reset => exact Or.inl rfl
  | finalize =>
    right
    simp only [SqliteStmt.applyOp, finalize_stmt]

theorem runOps_cursors (ops : List (Bool × StmtOp)) :
    ∀ (s c : SqliteStmt) (e : Engine),
      (runOps ops s c e).1.cursors = cursorsAfter false ops s.cursors ∧
      (runOps ops s c e).2.1.cursors = cursorsAfter true ops c.cursors ∧
      ((runOps ops s c e).1.m_stmt = s.m_stmt ∨ (runOps ops s c e).1.m_stmt = none) ∧
      ((runOps ops s c e).2.1.m_stmt = c.m_stmt ∨ (runOps ops s c e).2.1.m_stmt = none) := by
  induction ops with
  | nil =>
    intro s c e
    exact ⟨rfl, rfl, Or.inl rfl, Or.inl rfl⟩
  | cons x ops ih =>
    intro s c e
    obtain ⟨b, op⟩ := x
    cases b with
    | false =>
      obtain ⟨h1, h2, h3, h4⟩ := ih (s.applyOp op (decide (c.m_stmt ≠ s.m_stmt)) e).1 c
        (s.applyOp op (decide (c.m_stmt ≠ s.m_stmt)) e).2
      rw [applyOp_cursors] at h1
      refine ⟨?_, ?_, ?_, ?_⟩
      · simpa [runOps, cursorsAfter] using h1
      · simpa [runOps, cursorsAfter] using h2
      · simp only [runOps]
        rcases h3 with h3 | h3
        · rcases applyOp_m_stmt s op (decide (c.m_stmt ≠ s.m_stmt)) e with h5 | h5
          · exact Or.inl (h3.trans h5)
          · exact Or.inr (h3.trans h5)
        · exact Or.inr h3
      · simpa [runOps] using h4
    | true =>
      obtain ⟨h1, h2, h3, h4⟩ := ih s (c.applyOp op (decide (s.m_stmt ≠ c.m_stmt)) e).1
        (c.applyOp op (decide (s.m_stmt ≠ c.m_stmt)) e).2
      rw [applyOp_cursors] at h2
      refine ⟨?_, ?_, ?_, ?_⟩
      · simpa [runOps, cursorsAfter] using h1
      · simpa [runOps, cursorsAfter] using h2
      · simpa [runOps] using h3
      · simp only [runOps]
        rcases h4 with h4 | h4
        · rcases applyOp_m_stmt c op (decide (s.m_stmt ≠ c.m_stmt)) e with h5 | h5
          · exact Or.inl (h4.trans h5)
          · exact Or.inr (h4.trans h5)
        · exact Or.inr h4

theorem reset_out (s : SqliteStmt) (e : Engine) :
    (s.reset e).out =
      if isErrorCode (e.status e.trace (.reset s.m_stmt)) ∧ s.m_ex = true then
        .raise (.error (e.errstr (e.status e.trace (.reset s.m_stmt))))
      else .ret (e.status e.trace (.reset s.m_stmt)) := by
  simp only [SqliteStmt.reset, Engine.call, SqliteStmt.checkError, isErrorCode,
    SqliteExceptionsEnabled, Bool.true_and]
  by_cases h1 : e.status e.trace (.reset s.m_stmt) = SQLITE_ROW
  · simp [h1, SQLITE_ROW, SQLITE_OK]
  · by_cases h2 : e.status e.trace (.reset s.m_stmt) = SQLITE_DONE
    · simp [h1, h2, SQLITE_DONE, SQLITE_OK]
    · by_cases h0 : e.status e.trace (.reset s.m_stmt) = SQLITE_OK
      · simp [h1, h2, h0]
      · cases hex : s.m_ex <;> simp [h1, h2, h0, hex]

theorem stmt_checkError_out (s : SqliteStmt) (e : Engine) :
    s.checkError e =
      if isErrorCode s.m_rc ∧ s.m_ex = true then .raise (.error (e.errstr s.m_rc))
      else .ret s.m_rc := by
  simp only [SqliteStmt.checkError, isErrorCode, SqliteExceptionsEnabled, Bool.true_and]
  by_cases h1 : s.m_rc = SQLITE_ROW
  · simp [h1, SQLITE_ROW, SQLITE_OK]
  · by_cases h2 : s.m_rc = SQLITE_DONE
    · simp [h1, h2, SQLITE_DONE, SQLITE_OK]
    · by_cases h0 : s.m_rc = SQLITE_OK
      · simp [h1, h2, h0]
      · cases hex : s.m_ex <;> simp [h1, h2, h0, hex]

theorem db_checkError_out (db : SqliteDb) (e : Engine) :
    db.checkError e =
      if isErrorCode (e.extended_errcode e.trace db.m_dbh) ∧ db.m_ex = true then
        .raise (.error (e.errmsg e.trace db.m_dbh))
      else .ret (e.extended_errcode e.trace db.m_dbh) := by
  simp only [SqliteDb.checkError, isErrorCode, SqliteExceptionsEnabled, Bool.true_and]
  by_cases h1 : e.extended_errcode e.trace db.m_dbh = SQLITE_ROW
  · simp [h1, SQLITE_ROW, SQLITE_OK]
  · by_cases h2 : e.extended_errcode e.trace db.m_dbh = SQLITE_DONE
    · simp [h1, h2, SQLITE_DONE, SQLITE_OK]
    · by_cases h0 : e.extended_errcode e.trace db.m_dbh = SQLITE_OK
      · simp [h1, h2, h0]
      · cases hex : db.m_ex <;> simp [h1, h2, h0, hex]

/-! ## Theorems -/

/-- C1: for every status code `c` and flag `e`, `SqliteDb::CheckError(c, e)`,
`SqliteStmt::checkError` on a statement whose last code is `c` and whose flag is
`e`, and `SqliteDb::checkError` on a connection whose current extended code is
`c` and whose flag is `e`, each raise exactly when `c` is none of 0, 100, 101 and
`e` is true, and each return `c` unchanged otherwise. -/
theorem C1_error_policy_agree (c : Int) (e : Bool) (eng : Engine)
    (s : SqliteStmt) (db : SqliteDb)
    (hs : s.m_rc = c ∧ s.m_ex = e)
    (hdb : eng.extended_errcode eng.trace db.m_dbh = c ∧ db.m_ex = e) :
    ((SqliteDb.CheckError eng c e).raises = true ↔ (isErrorCode c ∧ e = true)) ∧
    ((SqliteStmt.checkError s eng).raises = true ↔ (isErrorCode c ∧ e = true)) ∧
    ((SqliteDb.checkError db eng).raises = true ↔ (isErrorCode c ∧ e = true)) ∧
    (¬ (isErrorCode c ∧ e = true) →
      SqliteDb.CheckError eng c e = .ret c ∧
      SqliteStmt.checkError s eng = .ret c ∧
      SqliteDb.checkError db eng = .ret c) := by
  obtain ⟨hs1, hs2⟩ := hs
  obtain ⟨hd1, hd2⟩ := hdb
  subst hs1
  subst hs2
  unfold SqliteDb.CheckError SqliteStmt.checkError SqliteDb.checkError isErrorCode
  simp only [hd1, hd2, SqliteExceptionsEnabled, Bool.true_and]
  by_cases h0 : s.m_rc = SQLITE_OK
  · simp [h0, Outcome.raises]
  · by_cases h1 : s.m_rc = SQLITE_ROW
    · simp [h0, h1, Outcome.raises]
    · by_cases h2 : s.m_rc = SQLITE_DONE
      · simp [h0, h1, h2, Outcome.raises]
      · cases hex : s.m_ex <;> simp [h0, h1, h2, Outcome.raises]

/-- Instance of C1 at the generic-error code 1 with the flag enabled: all three
entry points raise. -/
theorem C1_error_policy_agree_witness :
    (SqliteDb.CheckError (constEngine 1 none none) 1 true).raises = true ∧
    (SqliteStmt.checkError ⟨none, 1, 0, 1, true⟩ (constEngine 1 none none)).raises = true ∧
    (SqliteDb.checkError (demoDb true) (constEngine 1 none none)).raises = true := by
  have h := C1_error_policy_agree 1 true (constEngine 1 none none) ⟨none, 1, 0, 1, true⟩
    (demoDb true) ⟨rfl, rfl⟩ ⟨rfl, rfl⟩
  exact ⟨h.1.2 (by decide), h.2.1.2 (by decide), h.2.2.1.2 (by decide)⟩

/-! ### C2 : `SqliteDb::exec` -/

/-- C2 as stated fails: it is not the case that every `exec` whose engine status
is an error code raises when the flag is enabled and returns the recorded code
when it is disabled.  With the flag enabled, engine status 1 and a diagnostic
message supplied, `exec` returns 1 without raising. -/
theorem C2_exec_counterexample :
    ¬ (∀ (db : SqliteDb) (sql : String) (eng : Engine),
        isErrorCode (eng.status eng.trace (.exec db.m_dbh sql)) →
        (db.m_ex = true → (db.exec sql eng).out.raises = true) ∧
        (db.m_ex = false →
          (db.exec sql eng).out = .ret (eng.status eng.trace (.exec db.m_dbh sql)) ∧
          (db.exec sql eng).db.m_rc = eng.status eng.trace (.exec db.m_dbh sql))) := by
  intro h
  have h1 := (h (demoDb true) "DROP TABLE T9" (constEngine 1 none (some "no such table: T9"))
    (by decide)).1 rfl
  revert h1
  decide

/-- What `exec` does on each branch, for every handle, statement text and
engine: the engine status is always recorded as the last status; when the
engine supplied no diagnostic message the status goes through `CheckError`
(raise with the engine's text for an error-class status with the flag enabled,
return of the code otherwise); when the engine supplied a message, `CheckError`
is not called and the freed message is read. -/
theorem exec_branches (db : SqliteDb) (sql : String) (eng : Engine) :
    (db.exec sql eng).db.m_rc = eng.status eng.trace (.exec db.m_dbh sql) ∧
    (eng.execErrmsg eng.trace (.exec db.m_dbh sql) = none →
      isErrorCode (eng.status eng.trace (.exec db.m_dbh sql)) → db.m_ex = true →
      (db.exec sql eng).out =
        .raise (.error (eng.errstr (eng.status eng.trace (.exec db.m_dbh sql))))) ∧
    (eng.execErrmsg eng.trace (.exec db.m_dbh sql) = none →
      ¬ (isErrorCode (eng.status eng.trace (.exec db.m_dbh sql)) ∧ db.m_ex = true) →
      (db.exec sql eng).out = .ret (eng.status eng.trace (.exec db.m_dbh sql))) ∧
    (eng.execErrmsg eng.trace (.exec db.m_dbh sql) ≠ none →
      (db.exec sql eng).out = .undefined) := by
  refine ⟨?_, ?_, ?_, ?_⟩
  · simp only [SqliteDb.exec, Engine.call]
    split
    · rfl
    · split <;> rfl
  · rintro hm ⟨h0, h1, h2⟩ hex
    simp [SqliteDb.exec, Engine.call, hm, SqliteDb.CheckError, h0, h1, h2, hex,
      SqliteExceptionsEnabled]
  · intro hm hno
    simp only [SqliteDb.exec, Engine.call, hm]
    generalize eng.status eng.trace (.exec db.m_dbh sql) = rc at hno ⊢
    have hck : ∀ e2, SqliteDb.CheckError e2 rc db.m_ex = .ret rc := by
      intro e2
      unfold SqliteDb.CheckError isErrorCode at *
      by_cases h0 : rc = SQLITE_OK
      · simp [h0]
      · by_cases h1 : rc = SQLITE_ROW
        · simp [h1, h0]
        · by_cases h2 : rc = SQLITE_DONE
          · simp [h2, h0]
          · have hex : db.m_ex = false := by
              cases hx : db.m_ex
              · rfl
              · exact absurd ⟨⟨h0, h1, h2⟩, hx⟩ hno
            simp [h0, h1, h2, hex]
    simp only [hck]
  · intro hm
    simp only [SqliteDb.exec, Engine.call]
    split
    · rfl
    · rename_i hnone
      exact absurd hnone hm

/-- C2 (the code at the failing input): on a handle with the exceptions flag
enabled, with the engine answering the error-class status 1 together with a
diagnostic message, `exec` records 1, does not call `CheckError` and does not
raise: it frees the message and then reads it.  On the sibling branch, the same
status without a message, `exec` raises through `CheckError`. -/
theorem C2_exec_message_branch :
    isErrorCode 1 ∧ (demoDb true).m_ex = true ∧
    ((demoDb true).exec "DROP TABLE T9"
      (constEngine 1 none (some "no such table: T9"))).out = .undefined ∧
    ((demoDb true).exec "DROP TABLE T9"
      (constEngine 1 none (some "no such table: T9"))).out.raises = false ∧
    ((demoDb true).exec "DROP TABLE T9"
      (constEngine 1 none (some "no such table: T9"))).db.m_rc = 1 ∧
    ((demoDb true).exec "DROP TABLE T9" (constEngine 1 none none)).out =
      .raise (.error "engine error") := by
  decide

/-! ### C3 : bind / column round trip -/

/-- C3 as stated fails at explicit values.  A zero-length blob: the engine
reports a null blob pointer and the blob extraction raises through `Ensures`.
The text `a NUL b`: the extraction copies up to the first NUL and yields `a`.
A NaN double: the engine stores NULL and the extraction yields 0.0.  The empty
text with a null data pointer (`std::string_view{}`): the engine binds NULL,
reports a null text pointer, and the extraction builds a string from it. -/
theorem C3_round_trip_counterexample :
    ((Scalar.blob []).wf ∧ ¬ RoundTrip (.blob [])) ∧
    ((Scalar.text [97, 0, 98]).wf ∧ ¬ RoundTrip (.text [97, 0, 98])) ∧
    ((Scalar.double ⟨0x7FF8000000000000⟩).wf ∧ ¬ RoundTrip (.double ⟨0x7FF8000000000000⟩)) ∧
    (Scalar.textNull.wf ∧ ¬ RoundTrip .textNull) := by
  refine ⟨⟨by simp [Scalar.wf], ?_⟩, ⟨by simp [Scalar.wf], ?_⟩, ⟨trivial, ?_⟩, ⟨trivial, ?_⟩⟩
  · intro h
    have hh : ((demoStmt true).bindScalar 1 (.blob []) (constEngine 0 none none)).eng.held
        (demoStmt true).m_stmt 1 = some (.blob []) := by decide
    have h1 := h (demoStmt true) (demoStmt true) 1 0 (constEngine 0 none none)
      (cellEngine (.blob [])) (by decide)
      (fun cell hc => by
        rw [hh] at hc
        cases hc
        exact ⟨rfl, rfl⟩)
    revert h1
    decide
  · intro h
    have hh : ((demoStmt true).bindScalar 1 (.text [97, 0, 98])
        (constEngine 0 none none)).eng.held (demoStmt true).m_stmt 1 =
        some (.text [97, 0, 98]) := by decide
    have h1 := h (demoStmt true) (demoStmt true) 1 0 (constEngine 0 none none)
      (cellEngine (.text [97, 0, 98])) (by decide)
      (fun cell hc => by
        rw [hh] at hc
        cases hc
        exact ⟨rfl, rfl⟩)
    revert h1
    decide
  · intro h
    have hh : ((demoStmt true).bindScalar 1 (.double ⟨0x7FF8000000000000⟩)
        (constEngine 0 none none)).eng.held (demoStmt true).m_stmt 1 = some .null := by decide
    have h1 := h (demoStmt true) (demoStmt true) 1 0 (constEngine 0 none none)
      (cellEngine .null) (by decide)
      (fun cell hc => by
        rw [hh] at hc
        cases hc
        exact ⟨rfl, rfl, rfl, rfl, rfl, rfl⟩)
    revert h1
    decide
  · intro h
    have hh : ((demoStmt true).bindScalar 1 .textNull (constEngine 0 none none)).eng.held
        (demoStmt true).m_stmt 1 = some .null := by decide
    have h1 := h (demoStmt true) (demoStmt true) 1 0 (constEngine 0 none none)
      (cellEngine .null) (by decide)
      (fun cell hc => by
        rw [hh] at hc
        cases hc
        exact ⟨rfl, rfl, rfl, rfl, rfl, rfl⟩)
    revert h1
    decide

/-- C3 (amended): for every int32, every int64, every double other than NaN,
every text with a non-null data pointer and without a NUL byte, and every blob
of at least one byte (lengths below 2^31): when the type's bind operation at
position `i` of a statement returns OK, and a column reports the value the
engine then holds for that parameter of that statement, the same type's column
operation returns a value equal to the bound one, without raising. -/
theorem C3_round_trip (v : Scalar) (hwf : v.wf) (hv : v.survives) : RoundTrip v := by
  intro s s2 i j e0 e hok hrep
  cases v with
  | int32 x =>
    have hst : e0.status e0.trace (.bind_int s.m_stmt i x) = SQLITE_OK := by
      simpa [SqliteStmt.bindScalar, SqliteStmt.bind, Engine.call] using hok
    have hheld : (s.bindScalar i (.int32 x) e0).eng.held s.m_stmt i = some (.integer x) := by
      simp only [SqliteStmt.bindScalar, SqliteStmt.bind, held_call, bindTarget, hst, stored,
        and_self, if_true]
    have hr := hrep _ hheld
    obtain ⟨h1, h2⟩ := hwf
    simp only [Engine.reports] at hr
    simp only [SqliteStmt.column, Scalar.colTy, Scalar.toColVal, hr.1,
      toInt32_of_range x h1 h2]
  | int64 x =>
    have hst : e0.status e0.trace (.bind_int64 s.m_stmt i x) = SQLITE_OK := by
      simpa [SqliteStmt.bindScalar, SqliteStmt.bind, Engine.call] using hok
    have hheld : (s.bindScalar i (.int64 x) e0).eng.held s.m_stmt i = some (.integer x) := by
      simp only [SqliteStmt.bindScalar, SqliteStmt.bind, held_call, bindTarget, hst, stored,
        and_self, if_true]
    have hr := hrep _ hheld
    simp only [Engine.reports] at hr
    simp only [SqliteStmt.column, Scalar.colTy, Scalar.toColVal, hr.2]
  | double d =>
    have hd : d.isNaN = false := hv
    have hst : e0.status e0.trace (.bind_double s.m_stmt i d) = SQLITE_OK := by
      simpa [SqliteStmt.bindScalar, SqliteStmt.bind, Engine.call] using hok
    have hheld : (s.bindScalar i (.double d) e0).eng.held s.m_stmt i = some (.real d) := by
      simp only [SqliteStmt.bindScalar, SqliteStmt.bind, held_call, bindTarget, hst, stored,
        and_self, if_true, hd, Bool.false_eq_true, if_false]
    have hr := hrep _ hheld
    simp only [Engine.reports] at hr
    simp only [SqliteStmt.column, Scalar.colTy, Scalar.toColVal, hr]
  | text b =>
    have hb : ∀ x ∈ b, x ≠ 0 := hv
    have hlen : b.length < 2 ^ 31 := hwf
    have hn : ¬ ((b.length : Int) < 0) := by
      have : (0 : Int) ≤ (b.length : Int) := Int.ofNat_nonneg _
      omega
    have hst : e0.status e0.trace (.bind_text s.m_stmt i b (toInt32 b.length) true)
        = SQLITE_OK := by
      simpa [SqliteStmt.bindScalar, SqliteStmt.bind, Engine.call] using hok
    rw [toInt32_length b hlen] at hst
    have hheld : (s.bindScalar i (.text b) e0).eng.held s.m_stmt i = some (.text b) := by
      simp only [SqliteStmt.bindScalar, SqliteStmt.bind, held_call, bindTarget, stored,
        toInt32_length b hlen, hst, and_self, true_and, if_true, hn, if_false,
        Int.toNat_ofNat, List.take_length]
    have hr := hrep _ hheld
    simp only [Engine.reports] at hr
    simp only [SqliteStmt.column, Scalar.colTy, Scalar.toColVal, hr.1,
      takeWhile_ne_zero b hb]
  | blob b =>
    have hb : b ≠ [] := hv
    have hlen : b.length < 2 ^ 31 := hwf
    have hn : ¬ ((b.length : Int) < 0) := by
      have : (0 : Int) ≤ (b.length : Int) := Int.ofNat_nonneg _
      omega
    have hst : e0.status e0.trace (.bind_blob s.m_stmt i b (toInt32 b.length) true)
        = SQLITE_OK := by
      simpa [SqliteStmt.bindScalar, SqliteStmt.bindref, Engine.call] using hok
    rw [toInt32_length b hlen] at hst
    have hheld : (s.bindScalar i (.blob b) e0).eng.held s.m_stmt i = some (.blob b) := by
      simp only [SqliteStmt.bindScalar, SqliteStmt.bindref, held_call, bindTarget, stored,
        toInt32_length b hlen, hst, and_self, true_and, if_true, hn, Bool.true_eq_false,
        or_self, if_false, Int.toNat_ofNat, List.take_length]
    have hr := hrep _ hheld
    simp only [Engine.reports, hb, if_false] at hr
    simp only [SqliteStmt.column, Scalar.colTy, Scalar.toColVal, hr.1, hr.2, hn,
      if_false, Int.toNat_ofNat, le_refl, if_true, List.take_length]
  | textNull => exact absurd hv (by simp [Scalar.survives])
  | blobNull => exact absurd hv (by simp [Scalar.survives])

/-- Instance of the amended C3: the text `Fi` and the one-byte blob `[7]`, bound
at position 1 with the engine answering OK, are extracted unchanged from a
column that reports what the engine holds for that parameter. -/
theorem C3_round_trip_witness :
    (demoStmt true).column 0 .string (cellEngine (.text [70, 105])) =
      .ret (.string [70, 105]) ∧
    (demoStmt true).column 0 .blob (cellEngine (.blob [7])) = .ret (.blob [7]) := by
  have hh1 : ((demoStmt true).bindScalar 1 (.text [70, 105])
      (constEngine 0 none none)).eng.held (demoStmt true).m_stmt 1 =
      some (.text [70, 105]) := by decide
  have hh2 : ((demoStmt true).bindScalar 1 (.blob [7]) (constEngine 0 none none)).eng.held
      (demoStmt true).m_stmt 1 = some (.blob [7]) := by decide
  exact ⟨C3_round_trip (.text [70, 105]) (by simp [Scalar.wf]) (by simp [Scalar.survives])
      (demoStmt true) (demoStmt true) 1 0 (constEngine 0 none none)
      (cellEngine (.text [70, 105])) (by decide)
      (fun cell hc => by
        rw [hh1] at hc
        cases hc
        exact ⟨rfl, rfl⟩),
    C3_round_trip (.blob [7]) (by simp [Scalar.wf]) (by simp [Scalar.survives])
      (demoStmt true) (demoStmt true) 1 0 (constEngine 0 none none) (cellEngine (.blob [7]))
      (by decide)
      (fun cell hc => by
        rw [hh2] at hc
        cases hc
        exact ⟨rfl, rfl⟩)⟩

/-! ### C4 : explicit-position binds and the error policy -/

/-- A scalar `bind` / `bindref` (every form but the tuple one) returns the
engine status and records it, and never raises, whatever the flag. -/
theorem scalar_bind_returns (s : SqliteStmt) (i : Int) (e : Engine) :
    (∀ t : BindVal, (∀ a, t ≠ .tuple a) →
      ∃ c, (s.bind i t e).out = .ret (e.status e.trace c) ∧
        (s.bind i t e).stmt = { s with m_rc := e.status e.trace c } ∧
        (s.bind i t e).eng.trace = e.trace ++ [c]) ∧
    (∀ t : BindRef, (∀ a, t ≠ .tuple a) →
      ∃ c, (s.bindref i t e).out = .ret (e.status e.trace c) ∧
        (s.bindref i t e).stmt = { s with m_rc := e.status e.trace c } ∧
        (s.bindref i t e).eng.trace = e.trace ++ [c]) := by
  constructor
  · intro t ht
    cases t with
    | tuple a => exact absurd rfl (ht a)
    | int32 v => exact ⟨_, rfl, rfl, rfl⟩
    | int64 v => exact ⟨_, rfl, rfl, rfl⟩
    | double v => exact ⟨_, rfl, rfl, rfl⟩
    | string_view v => exact ⟨_, rfl, rfl, rfl⟩
    | cstr v => exact ⟨_, rfl, rfl, rfl⟩
    | nullptr => exact ⟨_, rfl, rfl, rfl⟩
    | string_view_null => exact ⟨_, rfl, rfl, rfl⟩
  · intro t ht
    cases t with
    | tuple a => exact absurd rfl (ht a)
    | string v => exact ⟨_, rfl, rfl, rfl⟩
    | blob v => exact ⟨_, rfl, rfl, rfl⟩
    | blob_null => exact ⟨_, rfl, rfl, rfl⟩

/-- C4 (the code at the failing input): on a handle with the exceptions flag
enabled, with the engine answering the error-class status 25 (SQLITE_RANGE),
the 32-bit int, 64-bit int, double, text, blob and null binds at position 9
return 25 without raising, while the tuple binds raise through the error
policy.  All of them record 25 as the last status. -/
theorem C4_scalar_bind_skips_error_policy :
    isErrorCode 25 ∧ (demoStmt true).m_ex = true ∧
    ((demoStmt true).bind 9 (.int32 5) (constEngine 25 none none)).out = .ret 25 ∧
    ((demoStmt true).bind 9 (.int64 5) (constEngine 25 none none)).out = .ret 25 ∧
    ((demoStmt true).bind 9 (.double ⟨0⟩) (constEngine 25 none none)).out = .ret 25 ∧
    ((demoStmt true).bind 9 (.string_view [70]) (constEngine 25 none none)).out = .ret 25 ∧
    ((demoStmt true).bind 9 (.cstr [70]) (constEngine 25 none none)).out = .ret 25 ∧
    ((demoStmt true).bind 9 .nullptr (constEngine 25 none none)).out = .ret 25 ∧
    ((demoStmt true).bindref 9 (.string [70]) (constEngine 25 none none)).out = .ret 25 ∧
    ((demoStmt true).bindref 9 (.blob [70]) (constEngine 25 none none)).out = .ret 25 ∧
    ((demoStmt true).bind 9 (.int32 5) (constEngine 25 none none)).stmt.m_rc = 25 ∧
    ((demoStmt true).bind 9 (.tuple [1, 2]) (constEngine 25 none none)).out =
      .raise (.error "engine error") ∧
    ((demoStmt true).bindref 9 (.tuple [1, 2]) (constEngine 25 none none)).out =
      .raise (.error "engine error") ∧
    ((demoStmt true).bind 9 (.tuple [1, 2]) (constEngine 25 none none)).stmt.m_rc = 25 := by
  decide

/-! ### C5 : `SqliteDb::prepare` and `SqliteDb::stmt` -/

/-- C5: let `rc` be the status of the engine's prepare primitive and `pp` the
statement it hands out.  If `rc` is not OK, `prepare` leaves its output parameter
as it was and `stmt` builds the empty handle (null resource, bind cursor 1,
column cursor 0), in both cases after `CheckError(rc, m_ex)`: when that raises
(error-class `rc`, flag enabled) both forms raise the same failure, otherwise
`prepare` returns `rc` and `stmt` returns the empty handle.  If `rc` is OK, the
output parameter of `prepare`, and the handle returned by `stmt`, hold exactly
`pp` with bind cursor 1 and column cursor 0, and `prepare` returns OK. -/
theorem C5_prepare_outcomes (db : SqliteDb) (sql : String) (out : SqliteStmt)
    (lastOwner SqliteEx : Bool) (eng : Engine) :
    (eng.status eng.trace (.prepare_v3 db.m_dbh sql (toInt32 sql.utf8ByteSize) 0) ≠ SQLITE_OK →
      (db.prepare sql out lastOwner SqliteEx eng).stmt = out ∧
      ((isErrorCode (eng.status eng.trace
            (.prepare_v3 db.m_dbh sql (toInt32 sql.utf8ByteSize) 0)) ∧ db.m_ex = true) →
        (db.prepare sql out lastOwner SqliteEx eng).out = .raise (.error (eng.errstr
          (eng.status eng.trace (.prepare_v3 db.m_dbh sql (toInt32 sql.utf8ByteSize) 0)))) ∧
        (db.stmt sql SqliteEx eng).out = .raise (.error (eng.errstr
          (eng.status eng.trace (.prepare_v3 db.m_dbh sql (toInt32 sql.utf8ByteSize) 0))))) ∧
      (¬ (isErrorCode (eng.status eng.trace
            (.prepare_v3 db.m_dbh sql (toInt32 sql.utf8ByteSize) 0)) ∧ db.m_ex = true) →
        (db.prepare sql out lastOwner SqliteEx eng).out = .ret (eng.status eng.trace
          (.prepare_v3 db.m_dbh sql (toInt32 sql.utf8ByteSize) 0)) ∧
        (db.stmt sql SqliteEx eng).out = .ret ⟨none, 1, 0, 0, SqliteEx⟩)) ∧
    (eng.status eng.trace (.prepare_v3 db.m_dbh sql (toInt32 sql.utf8ByteSize) 0) = SQLITE_OK →
      (db.prepare sql out lastOwner SqliteEx eng).stmt =
        ⟨eng.preparedStmt eng.trace
          (.prepare_v3 db.m_dbh sql (toInt32 sql.utf8ByteSize) 0), 1, 0, 0, SqliteEx⟩ ∧
      (db.prepare sql out lastOwner SqliteEx eng).out = .ret SQLITE_OK ∧
      (db.stmt sql SqliteEx eng).out = .ret ⟨eng.preparedStmt eng.trace
          (.prepare_v3 db.m_dbh sql (toInt32 sql.utf8ByteSize) 0), 1, 0, 0, SqliteEx⟩) := by
  generalize hrc : eng.status eng.trace
    (.prepare_v3 db.m_dbh sql (toInt32 sql.utf8ByteSize) 0) = rc
  constructor
  · intro hne
    refine ⟨?_, ?_, ?_⟩
    · simp only [SqliteDb.prepare, Engine.call, hrc, hne, if_false]
      split <;> rfl
    · rintro ⟨⟨h0, h1, h2⟩, hex⟩
      simp [SqliteDb.prepare, SqliteDb.stmt, Engine.call, hrc, SqliteDb.CheckError,
        h0, h1, h2, hex, SqliteExceptionsEnabled]
    · intro hno
      have hck : SqliteDb.CheckError
          { eng with trace := eng.trace ++
            [.prepare_v3 db.m_dbh sql (toInt32 sql.utf8ByteSize) 0] } rc db.m_ex = .ret rc := by
        unfold SqliteDb.CheckError isErrorCode at *
        by_cases h1 : rc = SQLITE_ROW
        · simp [h1, hne]
        · by_cases h2 : rc = SQLITE_DONE
          · simp [h2, hne]
          · have hex : db.m_ex = false := by
              cases hx : db.m_ex
              · rfl
              · exact absurd ⟨⟨hne, h1, h2⟩, hx⟩ hno
            simp [hne, h1, h2, hex]
      simp only [SqliteDb.prepare, SqliteDb.stmt, Engine.call, hrc, hne, if_false, hck,
        SqliteStmt.construct, and_self]
  · intro hok
    simp [SqliteDb.prepare, SqliteDb.stmt, Engine.call, hrc, hok, SqliteStmt.construct]

/-- Instance of C5: status 1 with the flag disabled leaves the output parameter
alone and `stmt` returns the empty handle; status 0 installs statement 7. -/
theorem C5_prepare_outcomes_witness :
    ((demoDb false).prepare "SELEC" (demoStmt true) true true (constEngine 1 none none)).stmt =
      demoStmt true ∧
    ((demoDb false).stmt "SELEC" true (constEngine 1 none none)).out =
      .ret ⟨none, 1, 0, 0, true⟩ ∧
    ((demoDb false).prepare "SELECT 1" ⟨none, 4, 2, 101, false⟩ true true
      (constEngine 0 (some 7) none)).stmt = ⟨some 7, 1, 0, 0, true⟩ :=
  ⟨((C5_prepare_outcomes (demoDb false) "SELEC" (demoStmt true) true true
      (constEngine 1 none none)).1 (by decide)).1,
   (((C5_prepare_outcomes (demoDb false) "SELEC" (demoStmt true) true true
      (constEngine 1 none none)).1 (by decide)).2.2 (by decide)).2,
   ((C5_prepare_outcomes (demoDb false) "SELECT 1" ⟨none, 4, 2, 101, false⟩ true true
      (constEngine 0 (some 7) none)).2 (by decide)).1⟩

/-! ### C6 : `SqliteStmt::finalize` -/

/-- C6: for every handle state, every ownership situation and every engine,
`finalize()` returns 0, does not raise, and leaves the handle with a null
resource, bind cursor 1 and column cursor 0 (last status and flag untouched).
A second `finalize()` returns 0 again, leaves the handle as the first one left
it and issues no engine call. -/
theorem C6_finalize_idempotent (s : SqliteStmt) (lastOwner lastOwner2 : Bool) (eng : Engine) :
    (s.finalize lastOwner eng).out = .ret 0 ∧
    (s.finalize lastOwner eng).stmt = ⟨none, 1, 0, s.m_rc, s.m_ex⟩ ∧
    ((s.finalize lastOwner eng).stmt.finalize lastOwner2 (s.finalize lastOwner eng).eng).out =
      .ret 0 ∧
    ((s.finalize lastOwner eng).stmt.finalize lastOwner2 (s.finalize lastOwner eng).eng).stmt =
      (s.finalize lastOwner eng).stmt ∧
    ((s.finalize lastOwner eng).stmt.finalize lastOwner2
      (s.finalize lastOwner eng).eng).eng.trace = (s.finalize lastOwner eng).eng.trace := by
  cases lastOwner <;> cases lastOwner2 <;> cases hs : s.m_stmt <;>
    simp [SqliteStmt.finalize, sharedRelease, Sqlite3StmtDeleter, hs]

/-! ### C7 : the boolean step -/

/-- C7: for every statement state and every engine, postfix `++` and `step()`
leave the same handle (column cursor 0, bind cursor unchanged, last status the
engine's step result) and the same engine; `++` raises exactly when `step()`
raises, with the same failure; when `step()` does not raise, `++` returns a
boolean that is true exactly when `step()` returns row-available.  Hence a loop
`while(stmt++) body` that ends without raising ends with a last status other
than row-available, and on an engine that reports `n` rows and then
operation-complete (with a body that leaves the engine and the native statement
alone) the loop does end, after `n + 1` steps, with last status
operation-complete. -/
theorem C7_boolean_step_refines_step (s : SqliteStmt) (e : Engine) :
    (s.operatorPlusPlus e).stmt = (s.step e).stmt ∧
    (s.operatorPlusPlus e).eng = (s.step e).eng ∧
    (s.step e).stmt =
      ⟨s.m_stmt, s.m_bindPos, 0, e.status e.trace (.step s.m_stmt), s.m_ex⟩ ∧
    (∀ f, (s.operatorPlusPlus e).out = .raise f ↔ (s.step e).out = .raise f) ∧
    ((s.step e).out.raises = false →
      ∃ b, (s.operatorPlusPlus e).out = .ret b ∧
        (b = true ↔ (s.step e).out = .ret SQLITE_ROW)) ∧
    (∀ (body : SqliteStmt → Engine → StmtRun Unit) (fuel : Nat) (r : StmtRun Unit),
      whileStep body fuel s e = some r → r.out = .ret () → r.stmt.m_rc ≠ SQLITE_ROW) ∧
    (∀ (f : SqliteStmt → SqliteStmt) (n : Nat), (∀ st, (f st).m_stmt = st.m_stmt) →
      (∀ k < n, e.status (e.trace ++ List.replicate k (.step s.m_stmt)) (.step s.m_stmt)
        = SQLITE_ROW) →
      e.status (e.trace ++ List.replicate n (.step s.m_stmt)) (.step s.m_stmt) = SQLITE_DONE →
      ∃ r, whileStep (fun st en => ⟨f st, en, .ret ()⟩) (n + 1) s e = some r ∧
        r.out = .ret () ∧ r.stmt.m_rc = SQLITE_DONE) := by
  have hs := operatorPlusPlus_stmt s e
  have ho := operatorPlusPlus_out s e
  have hso := step_out s e
  have hst : (s.step e).stmt =
      ⟨s.m_stmt, s.m_bindPos, 0, e.status e.trace (.step s.m_stmt), s.m_ex⟩ := rfl
  have hse : (s.step e).eng = { e with trace := e.trace ++ [.step s.m_stmt] } := rfl
  refine ⟨by rw [hs.1, hst], by rw [hs.2, hse], hst, ?_, ?_,
    fun body fuel r h hout => whileStep_rc body fuel s e r h hout,
    fun f n hf hrows hdone => whileStep_rows f hf n s e hrows hdone⟩
  · intro f
    rw [ho, hso]
    generalize e.status e.trace (.step s.m_stmt) = rc
    by_cases hrow : rc = SQLITE_ROW
    · subst hrow
      simp [not_isErrorCode_row]
    · by_cases herr : isErrorCode rc ∧ s.m_ex = true
      · simp [hrow, herr]
      · simp [hrow, herr]
  · intro hnr
    rw [ho, hso]
    rw [hso] at hnr
    generalize e.status e.trace (.step s.m_stmt) = rc at hnr ⊢
    by_cases hrow : rc = SQLITE_ROW
    · subst hrow
      exact ⟨true, by simp, by simp [not_isErrorCode_row]⟩
    · by_cases herr : isErrorCode rc ∧ s.m_ex = true
      · simp [herr, Outcome.raises] at hnr
      · exact ⟨false, by simp [hrow, herr], by simp [hrow, herr]⟩

/-- Instance of C7: on an engine that reports two rows and then
operation-complete, the loop ends with last status 101; on a row, `++` returns
true. -/
theorem C7_boolean_step_refines_step_witness :
    (whileStep (fun st en => ⟨st, en, .ret ()⟩) 3 (demoStmt true)
      (scriptEngine [100, 100, 101])).map (fun r => r.stmt.m_rc) = some 101 ∧
    ((demoStmt true).operatorPlusPlus (scriptEngine [100])).out = .ret true := by
  refine ⟨by decide, ?_⟩
  obtain ⟨b, hb, hiff⟩ := (C7_boolean_step_refines_step (demoStmt true)
    (scriptEngine [100])).2.2.2.2.1 (by decide)
  rw [hb, hiff.2 (by decide)]

/-! ### C8 : the streaming operators walk the positions -/

/-- C8: a freshly constructed and a freshly reset statement have bind cursor 1.
From a statement with bind cursor 1, for every list of values whose explicit
binds at positions 1, 2, ..., N all return OK, `<<` applied to the values in
turn issues exactly the engine calls of those explicit binds, raises nothing
and leaves the bind cursor at N + 1.  After a step, `>>` applied N times yields
the outcome of `column(0, _)`, ..., `column(N - 1, _)` and, when all N
extractions return, leaves the column cursor at N. -/
theorem C8_streaming_positions (s : SqliteStmt) (vs : List BindVal) (e : Engine)
    (s0 : SqliteStmt) (e0 : Engine) (tys : List ColTy)
    (hfresh : s.m_bindPos = 1)
    (hok : (s.bindAll 1 vs e).out = .ret (List.replicate vs.length SQLITE_OK)) :
    (∀ p ex, (SqliteStmt.construct p ex).m_bindPos = 1) ∧
    (s0.reset e0).stmt.m_bindPos = 1 ∧
    (s.shlAll vs e).eng.trace = (s.bindAll 1 vs e).eng.trace ∧
    (s.shlAll vs e).stmt.m_bindPos = vs.length + 1 ∧
    (s.shlAll vs e).out = .ret () ∧
    ((s0.step e0).stmt.shrAll tys (s0.step e0).eng).2 =
      (s0.step e0).stmt.columnAll 0 tys (s0.step e0).eng ∧
    (∀ vals, ((s0.step e0).stmt.shrAll tys (s0.step e0).eng).2 = .ret vals →
      ((s0.step e0).stmt.shrAll tys (s0.step e0).eng).1.m_colPos = tys.length ∧
      vals.length = tys.length) := by
  have h1 := shlAll_bindAll vs s s e rfl rfl (by rw [hfresh]; exact hok)
  rw [hfresh] at h1
  have h2 := shrAll_columnAll tys (s0.step e0).stmt (s0.step e0).stmt (s0.step e0).eng rfl
  have hc : (s0.step e0).stmt.m_colPos = 0 := rfl
  rw [hc] at h2
  refine ⟨fun _ _ => rfl, rfl, by rw [h1.1], ?_, h1.2.2.2, h2.1, ?_⟩
  · rw [h1.2.1]; ring
  · intro vals hv
    have := h2.2 vals hv
    simpa using this

/-- Instance of C8 (the inserts of the test): `stmt << 5 << 5.0 << "Fifth" <<
nullptr` on a fresh statement issues the binds at positions 1 to 4 and leaves
the bind cursor at 5. -/
theorem C8_streaming_positions_witness :
    ((demoStmt true).shlAll
      [.int32 5, .double ⟨0x4014000000000000⟩, .cstr [70, 105, 102, 116, 104], .nullptr]
      (constEngine 0 none none)).stmt.m_bindPos = 5 ∧
    ((demoStmt true).shlAll
      [.int32 5, .double ⟨0x4014000000000000⟩, .cstr [70, 105, 102, 116, 104], .nullptr]
      (constEngine 0 none none)).eng.trace =
      [.bind_int (some 7) 1 5, .bind_double (some 7) 2 ⟨0x4014000000000000⟩,
       .bind_text (some 7) 3 [70, 105, 102, 116, 104] 5 true, .bind_null (some 7) 4] := by
  have h := C8_streaming_positions (demoStmt true)
    [.int32 5, .double ⟨0x4014000000000000⟩, .cstr [70, 105, 102, 116, 104], .nullptr]
    (constEngine 0 none none) (demoStmt true) (constEngine 100 none none) [.int32]
    rfl (by decide)
  refine ⟨?_, ?_⟩
  · rw [h.2.2.2.1]; norm_num
  · rw [h.2.2.1]; decide

/-! ### C9 : when `<<` raises -/

/-- C9 as stated fails: it is not the case that, for every statement state and
value, `<<` raises exactly when the engine bind status is not OK, with an
outcome that does not depend on the flag and is the `Ensures` failure.  For a
tuple value, flag enabled and engine status 25, the raise comes from the error
policy inside the tuple bind. -/
theorem C9_shl_counterexample :
    ¬ (∀ (s : SqliteStmt) (t : BindVal) (e : Engine),
        ((s.operatorShl t e).out.raises = true ↔
          e.status e.trace (bindCallOf s.m_stmt s.m_bindPos t) ≠ SQLITE_OK) ∧
        (∀ b, (({ s with m_ex := b } : SqliteStmt).operatorShl t e).out =
          (s.operatorShl t e).out) ∧
        ((s.operatorShl t e).out.raises = true → (s.operatorShl t e).out = .raise .ensures)) := by
  intro h
  have h1 := (h (demoStmt true) (.tuple [1, 2]) (constEngine 25 none none)).2.2 (by decide)
  revert h1
  decide

/-- C9 (amended): for every statement state, value and engine, `<<` raises
exactly when the engine bind status is not OK, and whether it raises does not
depend on the exceptions flag.  For every value other than a tuple the raise is
the `Ensures` failure, whatever the flag.  For a tuple the raise is the
error-policy failure of the tuple bind when the status is error-class and the
flag is enabled, and the `Ensures` failure otherwise. -/
theorem C9_shl_raises_iff (s : SqliteStmt) (t : BindVal) (e : Engine) :
    ((s.operatorShl t e).out.raises = true ↔
      e.status e.trace (bindCallOf s.m_stmt s.m_bindPos t) ≠ SQLITE_OK) ∧
    (∀ b, (({ s with m_ex := b } : SqliteStmt).operatorShl t e).out.raises =
      (s.operatorShl t e).out.raises) ∧
    (t.isTuple = false → ∀ b, (({ s with m_ex := b } : SqliteStmt).operatorShl t e).out =
      if e.status e.trace (bindCallOf s.m_stmt s.m_bindPos t) = SQLITE_OK then .ret ()
      else .raise .ensures) ∧
    (t.isTuple = true → (s.operatorShl t e).out =
      if isErrorCode (e.status e.trace (bindCallOf s.m_stmt s.m_bindPos t)) ∧ s.m_ex = true then
        .raise (.error (e.errstr (e.status e.trace (bindCallOf s.m_stmt s.m_bindPos t))))
      else if e.status e.trace (bindCallOf s.m_stmt s.m_bindPos t) = SQLITE_OK then .ret ()
      else .raise .ensures) := by
  have key : ∀ (s1 : SqliteStmt), s1.m_stmt = s.m_stmt → s1.m_bindPos = s.m_bindPos →
      ((s1.operatorShl t e).out.raises = true ↔
        e.status e.trace (bindCallOf s.m_stmt s.m_bindPos t) ≠ SQLITE_OK) := by
    intro s1 hp hb
    rw [(operatorShl_eq s1 t e).2.2, hp, hb]
    generalize e.status e.trace (bindCallOf s.m_stmt s.m_bindPos t) = rc
    by_cases h0 : rc = SQLITE_OK
    · subst h0
      simp [not_isErrorCode_ok, Outcome.raises]
    · split_ifs <;> simp [h0, Outcome.raises]
  refine ⟨key s rfl rfl, ?_, ?_, ?_⟩
  · intro b
    have h1 := key { s with m_ex := b } rfl rfl
    have h2 := key s rfl rfl
    cases hx : (({ s with m_ex := b } : SqliteStmt).operatorShl t e).out.raises <;>
      cases hy : (s.operatorShl t e).out.raises <;> simp_all
  · intro ht b
    rw [(operatorShl_eq { s with m_ex := b } t e).2.2]
    simp [ht]
  · intro ht
    rw [(operatorShl_eq s t e).2.2]
    simp [ht]

/-! ### C10 : tuples as blobs -/

/-- Typed extraction into a tuple of `sizeofArgs` bytes raises exactly when the
engine's blob pointer is null or the engine's byte count differs from
`sizeofArgs`; the raise is the `Ensures` failure and the outcome does not depend
on the exceptions flag.  Otherwise the extracted bytes are the column's blob
bytes.  A tuple bound with `bindref` (the caller's object, which outlives the
call) and reported back by the engine is extracted byte for byte. -/
theorem tuple_column_contract (s : SqliteStmt) (col : Int) (sizeofArgs : Nat) (e : Engine)
    (hsz : (sizeofArgs : Int) < 2 ^ 63)
    (hint : -2 ^ 31 ≤ e.column_bytes e.trace s.m_stmt col ∧
      e.column_bytes e.trace s.m_stmt col < 2 ^ 31) :
    ((s.column col (.tuple sizeofArgs) e).raises = true ↔
      (e.column_blob e.trace s.m_stmt col = none ∨
        e.column_bytes e.trace s.m_stmt col ≠ sizeofArgs)) ∧
    ((s.column col (.tuple sizeofArgs) e).raises = true →
      s.column col (.tuple sizeofArgs) e = .raise .ensures) ∧
    (∀ b, ({ s with m_ex := b } : SqliteStmt).column col (.tuple sizeofArgs) e =
      s.column col (.tuple sizeofArgs) e) ∧
    (∀ buf, e.column_blob e.trace s.m_stmt col = some buf →
      e.column_bytes e.trace s.m_stmt col = sizeofArgs → buf.length = sizeofArgs →
      s.column col (.tuple sizeofArgs) e = .ret (.tuple buf)) ∧
    (∀ (s0 : SqliteStmt) (i : Int) (e0 : Engine) (args : List Byte) (cell : Cell),
      args.length = sizeofArgs → 0 < sizeofArgs → sizeofArgs < 2 ^ 31 →
      storedBy (s0.bindref i (.tuple args) e0).eng = some cell →
      e.reports s.m_stmt col cell →
      s.column col (.tuple sizeofArgs) e = .ret (.tuple args)) := by
  have hconv : toSizeT (e.column_bytes e.trace s.m_stmt col) = (sizeofArgs : Int) ↔
      e.column_bytes e.trace s.m_stmt col = sizeofArgs := by
    unfold toSizeT
    obtain ⟨h1, h2⟩ := hint
    have h3 : (0 : Int) ≤ (sizeofArgs : Int) := Int.ofNat_nonneg _
    norm_num at h1 h2 hsz ⊢
    omega
  have hgood : ∀ buf, e.column_blob e.trace s.m_stmt col = some buf →
      e.column_bytes e.trace s.m_stmt col = sizeofArgs → buf.length = sizeofArgs →
      s.column col (.tuple sizeofArgs) e = .ret (.tuple buf) := by
    intro buf hb hn hl
    have hc := hconv.2 hn
    simp only [SqliteStmt.column, hb, hc, ne_eq, not_true_eq_false, if_false, hl, le_refl,
      if_true]
    rw [← hl, List.take_length]
  refine ⟨?_, ?_, fun b => column_congr _ _ rfl _ _ _, hgood, ?_⟩
  · cases hb : e.column_blob e.trace s.m_stmt col with
    | none => simp [SqliteStmt.column, hb, Outcome.raises]
    | some buf =>
      by_cases hn : e.column_bytes e.trace s.m_stmt col = sizeofArgs
      · have hc := hconv.2 hn
        simp only [SqliteStmt.column, hb, hc, ne_eq, not_true_eq_false, if_false]
        split_ifs <;> simp [Outcome.raises, hn]
      · have hc : ¬ toSizeT (e.column_bytes e.trace s.m_stmt col) = (sizeofArgs : Int) :=
          fun h => hn (hconv.1 h)
        simp [SqliteStmt.column, hb, hc, hn, Outcome.raises]
  · intro hr
    cases hb : e.column_blob e.trace s.m_stmt col with
    | none => simp [SqliteStmt.column, hb]
    | some buf =>
      simp only [SqliteStmt.column, hb] at hr ⊢
      split_ifs at hr ⊢ <;> simp_all [Outcome.raises]
  · intro s0 i e0 args cell hlen hpos hlt hst hrep
    have hl31 : args.length < 2 ^ 31 := by rw [hlen]; exact hlt
    have hn : ¬ ((args.length : Int) < 0) := by
      have : (0 : Int) ≤ (args.length : Int) := Int.ofNat_nonneg _
      omega
    have hne : args ≠ [] := by
      intro h
      rw [h] at hlen
      simp at hlen
      omega
    have heng : (s0.bindref i (.tuple args) e0).eng =
        (e0.call (.bind_blob s0.m_stmt i args (toInt32 args.length) true)).2 := by
      simp only [SqliteStmt.bindref]
      split <;> rfl
    rw [heng] at hst
    simp only [storedBy_call, stored, toInt32_length args hl31, hn,
      Bool.true_eq_false, or_self, if_false, Int.toNat_ofNat, List.take_length,
      Option.some.injEq] at hst
    subst hst
    simp only [Engine.reports, hne, if_false] at hrep
    exact hgood args hrep.1 (by rw [hrep.2, hlen]) hlen

/-- C10 (the code at the failing input): `bind(4, tuple)` takes the tuple by
value and hands the engine the address of its own parameter with a null
(static) destructor, memory that is gone when the statement is stepped, so the
interface defines no stored value for it; `bindref(4, tuple)` hands over the
caller's object, for which the two-byte tuple is stored and extracted byte for
byte. -/
theorem C10_tuple_bind_by_value :
    ((demoStmt true).bind 4 (.tuple [1, 2]) (constEngine 0 none none)).eng.trace =
      [.bind_blob (some 7) 4 [1, 2] 2 false] ∧
    storedBy ((demoStmt true).bind 4 (.tuple [1, 2]) (constEngine 0 none none)).eng = none ∧
    ((demoStmt true).bindref 4 (.tuple [1, 2]) (constEngine 0 none none)).eng.trace =
      [.bind_blob (some 7) 4 [1, 2] 2 true] ∧
    storedBy ((demoStmt true).bindref 4 (.tuple [1, 2]) (constEngine 0 none none)).eng =
      some (.blob [1, 2]) ∧
    (demoStmt true).column 3 (.tuple 2) (cellEngine (.blob [1, 2])) = .ret (.tuple [1, 2]) ∧
    (demoStmt true).column 3 (.tuple 2) (cellEngine (.blob [1, 2, 3])) = .raise .ensures ∧
    (demoStmt false).column 3 (.tuple 2) (cellEngine .null) = .raise .ensures := by
  decide

/-! ### C11 : the dynamic `column(col)` -/

/-- C11 as stated fails: it is not the case that the dynamic `column(col)`
returns a value for every column and every engine answer.  When the engine
reports the TEXT tag with a null text pointer, `column(col)` builds a
`std::string` from the null pointer. -/
theorem C11_dynamic_column_counterexample :
    ¬ (∀ (s : SqliteStmt) (col : Int) (e : Engine), ∃ v, s.columnAny col e = .ret v) := by
  intro h
  obtain ⟨v, hv⟩ := h (demoStmt true) 2 nullTextEngine
  have hu : (demoStmt true).columnAny 2 nullTextEngine = .undefined := by decide
  rw [hu] at hv
  cases hv

/-- C11 (amended): for every column at which the engine keeps its interface
promises (under TEXT a text pointer that is not null; under BLOB a byte count
that is not negative and that the blob pointer covers), the dynamic
`column(col)` returns (it neither raises nor runs into undefined behaviour) and
the alternative it returns is fixed by the type tag: the engine's
32-bit integer under INTEGER, the engine's double under FLOAT, the engine's text
(as a C string) under TEXT, under BLOB a blob of exactly the engine-reported
number of bytes, equal to the bytes the blob pointer addresses, and the empty
value under NULL and under every other tag.  The exceptions flag plays no part. -/
theorem C11_dynamic_column (s : SqliteStmt) (col : Int) (e : Engine)
    (hsound : e.columnSound s.m_stmt col) :
    (∃ v, s.columnAny col e = .ret v) ∧
    (e.column_type e.trace s.m_stmt col = SQLITE_INTEGER →
      s.columnAny col e = .ret (.int (e.column_int e.trace s.m_stmt col))) ∧
    (e.column_type e.trace s.m_stmt col = SQLITE_FLOAT →
      s.columnAny col e = .ret (.double (e.column_double e.trace s.m_stmt col))) ∧
    (e.column_type e.trace s.m_stmt col = SQLITE_TEXT →
      ∃ buf, e.column_text e.trace s.m_stmt col = some buf ∧
        s.columnAny col e = .ret (.string (buf.takeWhile (fun x => x ≠ 0)))) ∧
    (e.column_type e.trace s.m_stmt col = SQLITE_BLOB →
      ∃ b, s.columnAny col e = .ret (.blob b) ∧
        (b.length : Int) = e.column_bytes e.trace s.m_stmt col ∧
        (∀ buf, e.column_blob e.trace s.m_stmt col = some buf → b = buf)) ∧
    (e.column_type e.trace s.m_stmt col ≠ SQLITE_INTEGER →
      e.column_type e.trace s.m_stmt col ≠ SQLITE_FLOAT →
      e.column_type e.trace s.m_stmt col ≠ SQLITE_TEXT →
      e.column_type e.trace s.m_stmt col ≠ SQLITE_BLOB →
      s.columnAny col e = .ret .empty) ∧
    (∀ b, (s.ex b).columnAny col e = s.columnAny col e) := by
  obtain ⟨htext, hblob⟩ := hsound
  have hI : e.column_type e.trace s.m_stmt col = SQLITE_INTEGER →
      s.columnAny col e = .ret (.int (e.column_int e.trace s.m_stmt col)) := by
    intro h
    simp [SqliteStmt.columnAny, h]
  have hF : e.column_type e.trace s.m_stmt col = SQLITE_FLOAT →
      s.columnAny col e = .ret (.double (e.column_double e.trace s.m_stmt col)) := by
    intro h
    simp [SqliteStmt.columnAny, h, SQLITE_FLOAT, SQLITE_INTEGER]
  have hT : e.column_type e.trace s.m_stmt col = SQLITE_TEXT →
      ∃ buf, e.column_text e.trace s.m_stmt col = some buf ∧
        s.columnAny col e = .ret (.string (buf.takeWhile (fun x => x ≠ 0))) := by
    intro h
    cases hb : e.column_text e.trace s.m_stmt col with
    | none => exact absurd hb (htext h)
    | some buf =>
      refine ⟨buf, rfl, ?_⟩
      simp [SqliteStmt.columnAny, h, hb, SQLITE_TEXT, SQLITE_FLOAT, SQLITE_INTEGER]
  have hB : e.column_type e.trace s.m_stmt col = SQLITE_BLOB →
      ∃ b, s.columnAny col e = .ret (.blob b) ∧
        (b.length : Int) = e.column_bytes e.trace s.m_stmt col ∧
        (∀ buf, e.column_blob e.trace s.m_stmt col = some buf → b = buf) := by
    intro h
    obtain ⟨h0, hlen, hnull⟩ := hblob h
    have hn : ¬ (e.column_bytes e.trace s.m_stmt col < 0) := not_lt.mpr h0
    have hcol : s.columnAny col e =
        if e.column_bytes e.trace s.m_stmt col = 0 then .ret (.blob [])
        else
          match e.column_blob e.trace s.m_stmt col with
          | none => .undefined
          | some buf =>
            if (e.column_bytes e.trace s.m_stmt col).toNat ≤ buf.length then
              .ret (.blob (buf.take (e.column_bytes e.trace s.m_stmt col).toNat))
            else .undefined := by
      simp [SqliteStmt.columnAny, h, hn, SQLITE_BLOB, SQLITE_TEXT, SQLITE_FLOAT, SQLITE_INTEGER]
    by_cases hz : e.column_bytes e.trace s.m_stmt col = 0
    · refine ⟨[], by rw [hcol, if_pos hz], by simp [hz], ?_⟩
      intro buf hbuf
      have := hlen buf hbuf
      rw [hz] at this
      have hl : buf.length = 0 := by exact_mod_cast this
      exact (List.length_eq_zero.mp hl).symm
    · cases hp : e.column_blob e.trace s.m_stmt col with
      | none => exact absurd (hnull hp) hz
      | some buf =>
        have hl := hlen buf hp
        have hle : (e.column_bytes e.trace s.m_stmt col).toNat ≤ buf.length := by
          rw [← hl]; simp
        have htk : buf.take (e.column_bytes e.trace s.m_stmt col).toNat = buf := by
          rw [← hl]; simp
        refine ⟨buf, ?_, hl, ?_⟩
        · rw [hcol, if_neg hz, hp]
          simp only [hle, if_true, htk]
        · intro buf2 h2
          exact (Option.some.inj h2)
  have hE : e.column_type e.trace s.m_stmt col ≠ SQLITE_INTEGER →
      e.column_type e.trace s.m_stmt col ≠ SQLITE_FLOAT →
      e.column_type e.trace s.m_stmt col ≠ SQLITE_TEXT →
      e.column_type e.trace s.m_stmt col ≠ SQLITE_BLOB →
      s.columnAny col e = .ret .empty := by
    intro h1 h2 h3 h4
    simp [SqliteStmt.columnAny, h1, h2, h3, h4]
  refine ⟨?_, hI, hF, hT, hB, hE, fun b => rfl⟩
  by_cases h1 : e.column_type e.trace s.m_stmt col = SQLITE_INTEGER
  · exact ⟨_, hI h1⟩
  · by_cases h2 : e.column_type e.trace s.m_stmt col = SQLITE_FLOAT
    · exact ⟨_, hF h2⟩
    · by_cases h3 : e.column_type e.trace s.m_stmt col = SQLITE_TEXT
      · obtain ⟨buf, _, hb⟩ := hT h3
        exact ⟨_, hb⟩
      · by_cases h4 : e.column_type e.trace s.m_stmt col = SQLITE_BLOB
        · obtain ⟨b, hb, _⟩ := hB h4
          exact ⟨_, hb⟩
        · exact ⟨_, hE h1 h2 h3 h4⟩

/-- Instance of the amended C11 (a row of the test and a blob): an INTEGER column
holding 1 yields the int 1, a TEXT column holding `First` yields that text, a
BLOB column of three bytes yields those bytes, a NULL column yields the empty
value. -/
theorem C11_dynamic_column_witness :
    (demoStmt true).columnAny 0 (typedCellEngine (.integer 1)) = .ret (.int 1) ∧
    (demoStmt true).columnAny 2 (typedCellEngine (.text [70, 105, 114, 115, 116])) =
      .ret (.string [70, 105, 114, 115, 116]) ∧
    (demoStmt true).columnAny 3 (typedCellEngine (.blob [1, 2, 3])) = .ret (.blob [1, 2, 3]) ∧
    (demoStmt true).columnAny 3 (typedCellEngine .null) = .ret .empty := by
  refine ⟨?_, ?_, ?_, ?_⟩
  · exact (C11_dynamic_column (demoStmt true) 0 (typedCellEngine (.integer 1))
      ⟨fun h => absurd h (by decide), fun h => absurd h (by decide)⟩).2.1 rfl
  · obtain ⟨buf, hb, hc⟩ := (C11_dynamic_column (demoStmt true) 2
      (typedCellEngine (.text [70, 105, 114, 115, 116]))
      ⟨fun _ => by decide, fun h => absurd h (by decide)⟩).2.2.2.1 rfl
    have hbuf : buf = [70, 105, 114, 115, 116] :=
      (Option.some.inj (show some [70, 105, 114, 115, 116] = some buf from hb)).symm
    subst hbuf
    rw [hc]
    decide
  · obtain ⟨b, hc, _, hall⟩ := (C11_dynamic_column (demoStmt true) 3
      (typedCellEngine (.blob [1, 2, 3]))
      ⟨fun h => absurd h (by decide),
       fun _ => ⟨by decide,
        fun buf hb => by
          have hbuf : buf = [1, 2, 3] :=
            (Option.some.inj (show some [1, 2, 3] = some buf from hb)).symm
          subst hbuf
          rfl,
        fun h => absurd h (by decide)⟩⟩).2.2.2.2.1 rfl
    have hb3 : b = [1, 2, 3] := hall [1, 2, 3] rfl
    rw [hc, hb3]
  · exact (C11_dynamic_column (demoStmt true) 3 (typedCellEngine .null)
      ⟨fun h => absurd h (by decide), fun h => absurd h (by decide)⟩).2.2.2.2.2.1
      (by decide) (by decide) (by decide) (by decide)

/-! ### C12 : the two exceptions flags -/

/-- C12 as stated fails: it is not the case that, for every value of the
process-wide default at the time of the call, `step()` with an error-class
engine status raises exactly when both that default and the handle's flag are
true.  A handle constructed while the default was true still raises after the
default has been cleared. -/
theorem C12_flags_counterexample :
    ¬ (∀ (SqliteEx : Bool) (s : SqliteStmt) (e : Engine),
        isErrorCode (e.status e.trace (.step s.m_stmt)) →
        ((s.step e).out.raises = true ↔ (SqliteEx = true ∧ s.m_ex = true))) := by
  intro h
  have h1 := (h false (SqliteStmt.construct (some 7) true) (constEngine 1 none none)
    (by decide)).1 (by decide)
  exact absurd h1.1 (by decide)

/-- C12 (amended): for every handle and every error-class status code, an
operation that applies the error policy (`step`, `reset`, `checkError` of a
statement, `checkError` of a connection) raises exactly when the handle's own
exceptions flag is true; no operation reads the process-wide default, so
clearing it after a handle was constructed does not change what that handle's
operations do.  Clearing the handle's flag with `ex(false)` makes these
operations stop raising and changes nothing else of the handle; a copy taken
before keeps its own flag and its outcome. -/
theorem C12_flags (s : SqliteStmt) (db : SqliteDb) (e : Engine) :
    (isErrorCode (e.status e.trace (.step s.m_stmt)) →
      ((s.step e).out.raises = true ↔ s.m_ex = true)) ∧
    (isErrorCode (e.status e.trace (.reset s.m_stmt)) →
      ((s.reset e).out.raises = true ↔ s.m_ex = true)) ∧
    (isErrorCode s.m_rc → ((s.checkError e).raises = true ↔ s.m_ex = true)) ∧
    (isErrorCode (e.extended_errcode e.trace db.m_dbh) →
      ((db.checkError e).raises = true ↔ db.m_ex = true)) ∧
    ((s.ex false).step e).out.raises = false ∧
    ((s.ex false).reset e).out.raises = false ∧
    ((s.ex false).checkError e).raises = false ∧
    ((db.ex false).checkError e).raises = false ∧
    (s.ex false) = ⟨s.m_stmt, s.m_bindPos, s.m_colPos, s.m_rc, false⟩ ∧
    (s.copy.m_ex = s.m_ex ∧ (s.copy.step e).out = (s.step e).out) := by
  refine ⟨?_, ?_, ?_, ?_, ?_, ?_, ?_, ?_, rfl, rfl, rfl⟩
  · intro h
    rw [step_out]
    cases hx : s.m_ex <;> simp [h, Outcome.raises]
  · intro h
    rw [reset_out]
    cases hx : s.m_ex <;> simp [h, Outcome.raises]
  · intro h
    rw [stmt_checkError_out]
    cases hx : s.m_ex <;> simp [h, Outcome.raises]
  · intro h
    rw [db_checkError_out]
    cases hx : db.m_ex <;> simp [h, Outcome.raises]
  · rw [step_out]; simp [SqliteStmt.ex, Outcome.raises]
  · rw [reset_out]; simp [SqliteStmt.ex, Outcome.raises]
  · rw [stmt_checkError_out]; simp [SqliteStmt.ex, Outcome.raises]
  · rw [db_checkError_out]; simp [SqliteDb.ex, Outcome.raises]

/-- Instance of the amended C12: a handle whose flag is true raises on engine
status 1 and stops raising after `ex(false)`. -/
theorem C12_flags_witness :
    ((⟨some 7, 1, 0, 0, true⟩ : SqliteStmt).step (constEngine 1 none none)).out.raises = true ∧
    (((⟨some 7, 1, 0, 0, true⟩ : SqliteStmt).ex false).step
      (constEngine 1 none none)).out.raises = false :=
  ⟨((C12_flags ⟨some 7, 1, 0, 0, true⟩ (demoDb true) (constEngine 1 none none)).1
      (by decide)).2 rfl,
   (C12_flags ⟨some 7, 1, 0, 0, true⟩ (demoDb true) (constEngine 1 none none)).2.2.2.2.1⟩

/-! ### C13 : the cursor invariant -/

/-- C13: a constructed handle (empty or bound) has bind cursor 1 and column
cursor 0; so has every handle after `reset()`, for every engine (whatever the
reset primitive reports, and whether or not `reset()` raises).  `step()` and
postfix `++` set the column cursor to 0 and leave the bind cursor alone.  Hence
a statement driven through a `while(stmt++)` loop and then reset has the cursors
of a freshly constructed one, and the first `<<` after `reset()` binds at
position 1 and leaves the bind cursor at 2. -/
theorem C13_cursor_invariant (s : SqliteStmt) (e : Engine) (p : Ptr) (SqliteEx : Bool)
    (t : BindVal) :
    (SqliteStmt.construct none SqliteEx).cursors = (1, 0) ∧
    (SqliteStmt.construct p SqliteEx).cursors = (1, 0) ∧
    (s.reset e).stmt.cursors = (1, 0) ∧
    (s.step e).stmt.cursors = (s.m_bindPos, 0) ∧
    (s.operatorPlusPlus e).stmt.cursors = (s.m_bindPos, 0) ∧
    (∀ (body : SqliteStmt → Engine → StmtRun Unit) (fuel : Nat) (r : StmtRun Unit),
      whileStep body fuel s e = some r →
      (r.stmt.reset r.eng).stmt.cursors = (SqliteStmt.construct p SqliteEx).cursors) ∧
    ((s.reset e).stmt.operatorShl t (s.reset e).eng).eng.trace =
      (s.reset e).eng.trace ++ [bindCallOf s.m_stmt 1 t] ∧
    ((s.reset e).stmt.operatorShl t (s.reset e).eng).stmt.cursors = (2, 0) := by
  refine ⟨rfl, rfl, rfl, rfl, ?_, fun _ _ _ _ => rfl, ?_, ?_⟩
  · rw [(operatorPlusPlus_stmt s e).1]
    rfl
  · rw [(operatorShl_eq (s.reset e).stmt t (s.reset e).eng).2.1]
    rfl
  · rw [(operatorShl_eq (s.reset e).stmt t (s.reset e).eng).1]
    rfl

/-- Instance of C13: a handle with cursors (4, 2) whose reset makes the engine
report the error 1 (so that `reset()` raises) is left with cursors (1, 0). -/
theorem C13_cursor_invariant_witness :
    ((⟨some 7, 4, 2, 101, true⟩ : SqliteStmt).reset (constEngine 1 none none)).out.raises
      = true ∧
    ((⟨some 7, 4, 2, 101, true⟩ : SqliteStmt).reset (constEngine 1 none none)).stmt.cursors
      = (1, 0) :=
  ⟨by decide,
   (C13_cursor_invariant ⟨some 7, 4, 2, 101, true⟩ (constEngine 1 none none) none true
      .nullptr).2.2.1⟩

/-! ### C14 : copies of a statement handle -/

/-- C14 as stated fails: it is not the case that a handle and its copy report
the same cursors after every sequence of operations applied to either.  After
one `<<` through the copy of a fresh handle the copy's bind cursor is 2 and the
original's is still 1. -/
theorem C14_copies_counterexample :
    ¬ (∀ (s : SqliteStmt) (ops : List (Bool × StmtOp)) (e : Engine),
        (runOps ops s s.copy e).1.cursors = (runOps ops s s.copy e).2.1.cursors) := by
  intro h
  have h1 := h (demoStmt true) [(true, .shl (.int32 5))] (constEngine 0 none none)
  revert h1
  decide

/-- C14 (amended): a copy of a statement handle starts with the same native
statement and the same cursor values as the original, but the cursors are
members of each handle: after any sequence of `<<`, `>>`, `step`, `reset` and
`finalize` applied to either one, the cursors of each handle are the result of
the operations applied to that handle alone, so a cursor advance made through
one is not seen through the other.  What the two share is the native statement:
each still holds the original one or, once finalized, none. -/
theorem C14_copies_own_cursors (s : SqliteStmt) (ops : List (Bool × StmtOp)) (e : Engine) :
    s.copy.m_stmt = s.m_stmt ∧
    s.copy.cursors = s.cursors ∧
    (runOps ops s s.copy e).1.cursors = cursorsAfter false ops s.cursors ∧
    (runOps ops s s.copy e).2.1.cursors = cursorsAfter true ops s.cursors ∧
    ((runOps ops s s.copy e).1.m_stmt = s.m_stmt ∨ (runOps ops s s.copy e).1.m_stmt = none) ∧
    ((runOps ops s s.copy e).2.1.m_stmt = s.m_stmt ∨
      (runOps ops s s.copy e).2.1.m_stmt = none) := by
  obtain ⟨h1, h2, h3, h4⟩ := runOps_cursors ops s s.copy e
  exact ⟨rfl, rfl, h1, h2, h3, h4⟩

/-- Instance of the amended C14: after `c << 5`, `s.step()`, `c << 6` the
original has cursors (1, 0) and the copy (3, 0). -/
theorem C14_copies_own_cursors_witness :
    (runOps [(true, .shl (.int32 5)), (false, .step), (true, .shl (.int32 6))]
      (demoStmt true) (demoStmt true).copy (constEngine 0 none none)).1.cursors = (1, 0) ∧
    (runOps [(true, .shl (.int32 5)), (false, .step), (true, .shl (.int32 6))]
      (demoStmt true) (demoStmt true).copy (constEngine 0 none none)).2.1.cursors = (3, 0) := by
  have h := C14_copies_own_cursors (demoStmt true)
    [(true, .shl (.int32 5)), (false, .step), (true, .shl (.int32 6))] (constEngine 0 none none)
  exact ⟨h.2.2.1.trans (by decide), h.2.2.2.1.trans (by decide)⟩

end MP
